import Mathlib

/-!
Verification development for the Clippi-Coach event pipeline.

This file gives a shallow embedding of the event detection, throttling,
batching, narration and match-summary logic of the repository
(`src/enhancedcoach.js`, `src/liveCommentary.js`,
`src/templateCommentarySystem.js`, `src/aiCoaching.js`) and proves the
behavioural properties stated in the specification against it.

Modelling conventions:
* JavaScript numbers are modelled as `ℤ` (timestamps, frame numbers, stock
  counts) or `ℚ` (percent / damage values); machine floating point plays no
  role in any property proved here.
* `Date.now()` is passed explicitly as a `now : ℤ` argument.
* Mutable per-match state objects become explicit record values threaded
  through the functions that the source mutates in place.
* `Math.random()`–based template selection is modelled by an explicit
  `seed : ℕ` argument, reduced modulo the number of available templates.
-/

namespace ClippiCoach

/-- Throttle classes of `EVENT_PRIORITIES` in `src/enhancedcoach.js`
(lines 31–52). Lifecycle events (game start / game end) have no entry:
they are enqueued directly, bypassing admission. -/
inductive EventType where
  | STOCK_LOSS
  | SIGNIFICANT_COMBO
  | MINOR_COMBO
  | NEUTRAL_EXCHANGE
  | FRAME_UPDATE
deriving DecidableEq, Repr

/-- Per-class throttle thresholds (ms) from `EVENT_PRIORITIES`. -/
def threshold : EventType → ℤ
  | .STOCK_LOSS => 1000
  | .SIGNIFICANT_COMBO => 1500
  | .MINOR_COMBO => 2500
  | .NEUTRAL_EXCHANGE => 5000
  | .FRAME_UPDATE => 10000

/-- Embedding of `_canTriggerEventType` (`src/enhancedcoach.js` lines
133–159) for a tracked match (the per-match `state.lastEventTimes` map
exists; a class never admitted before reads as `0` via the `|| 0`
default). Returns the admission decision together with the updated
`lastEventTimes` map; on admission the timestamp is set to `now` before
the decision is returned, on refusal the map is unchanged. -/
def canTriggerEventType (eventType : EventType) (now : ℤ)
    (lastEventTimes : EventType → ℤ) : Bool × (EventType → ℤ) :=
  let lastTriggered := lastEventTimes eventType
  if now - lastTriggered < threshold eventType then
    (false, lastEventTimes)
  else
    (true, Function.update lastEventTimes eventType now)

/-- A sequence of admission attempts for one class at the given wall-clock
times, threading the throttle state exactly as repeated calls to
`_canTriggerEventType` do; returns the list of decisions. -/
def admitRun (eventType : EventType) :
    (EventType → ℤ) → List ℤ → List Bool
  | _, [] => []
  | times, t :: ts =>
    let r := canTriggerEventType eventType t times
    r.1 :: admitRun eventType r.2 ts

/-- Per-player post-frame data (`player.post`) consumed by the coach. A
frame-array entry that is null, lacks `post`, or lacks `stocksRemaining`
is modelled as `none` at the slot. -/
structure FramePlayer where
  percent : ℚ
  stocksRemaining : ℤ
  actionStateId : ℤ
deriving DecidableEq, Repr

/-- A frame snapshot as read by `_processFrameData`; `players = none`
models a frame object whose `players` field is absent (the early-return
guard at line 556). -/
structure FrameData where
  frame : ℤ
  players : Option (List (Option FramePlayer))
deriving DecidableEq, Repr

/-- Roster entry built in `_handleFileChange` (lines 343–354); `index`
equals the entry's position in the roster array. -/
structure PlayerInfo where
  index : ℕ
  port : ℤ
  character : String
deriving DecidableEq, Repr

/-- A recorded stock-loss event (`gameState.stockEvents` entry, lines
643–649). -/
structure StockEvent where
  time : ℤ
  frame : ℤ
  playerIndex : ℕ
  stocksLost : ℤ
  remainingStocks : ℤ
deriving DecidableEq, Repr

/-- A recorded combo event (`gameState.comboEvents` entry, lines
699–705). -/
structure ComboEvent where
  playerIndex : ℕ
  startFrame : ℤ
  endFrame : ℤ
  moves : ℕ
  damage : ℚ
deriving DecidableEq, Repr

/-- An entry of the per-match pending commentary queue
(`this.pendingEvents[filePath]`). -/
inductive CoachEvent where
  | stockLost (playerIndex : ℕ) (stocksLost remainingStocks : ℤ)
      (playerCharacter : String) (frame : ℤ)
  | combo (playerIndex : ℕ) (moves : ℕ) (damage : ℚ)
      (playerCharacter : String) (startFrame endFrame : ℤ)
  | frameUpdate (frame : ℤ) (players : List (ℕ × ℚ × ℤ))
  | actionState (playerIndex : ℕ) (subType : String) (frame : ℤ)
  | gameStart (matchup : List String) (stage : ℤ)
  | gameEnd (endType : String) (frame : ℤ)
deriving DecidableEq, Repr

/-- Whether a pending entry is a frame-heartbeat (`frameUpdate`) event. -/
def CoachEvent.isFrameUpdate : CoachEvent → Bool
  | .frameUpdate _ _ => true
  | _ => false

/-- Per-match mutable state (`gameState` created at lines 310–319 plus
the pending queue of the same match). -/
structure GameState where
  players : List PlayerInfo
  stockEvents : List StockEvent
  comboEvents : List ComboEvent
  lastStockCounts : ℕ → ℤ
  lastEventTimes : EventType → ℤ
  pending : List CoachEvent

/-- Fresh per-match state: stock counts initialised to 4, no events, no
throttle history (lines 310–319 and the reset in `_handleGameStart`). -/
def initGameState (players : List PlayerInfo) : GameState :=
  { players := players
    stockEvents := []
    comboEvents := []
    lastStockCounts := fun _ => 4
    lastEventTimes := fun _ => 0
    pending := [] }

/-- The display character used when building pending events:
`playerData?.character || "Unknown"` (undefined roster entry or empty
string both fall back). -/
def playerCharacterAt (st : GameState) (i : ℕ) : String :=
  match st.players.get? i with
  | some p => if p.character = "" then "Unknown" else p.character
  | none => "Unknown"

/-- Embedding of `_handleStockLost` (lines 634–669): throttle check
first; on admission, record the stock event and enqueue a pending
`stockLost` event, both still reading `lastStockCounts[playerIndex]`,
which at this point holds the pre-loss value. -/
def handleStockLost (now : ℤ) (playerIndex : ℕ) (stocksLost : ℤ)
    (frame : FrameData) (st : GameState) : GameState :=
  let r := canTriggerEventType .STOCK_LOSS now st.lastEventTimes
  if r.1 then
    { st with
      lastEventTimes := r.2
      stockEvents := st.stockEvents ++
        [{ time := now, frame := frame.frame, playerIndex := playerIndex,
           stocksLost := stocksLost,
           remainingStocks := st.lastStockCounts playerIndex }]
      pending := st.pending ++
        [CoachEvent.stockLost playerIndex stocksLost
          (st.lastStockCounts playerIndex)
          (playerCharacterAt st playerIndex) frame.frame] }
  else st

/-- One iteration of the `latestFrame.players.forEach` body of
`_checkStockChanges` (lines 610–624) at array index `i`: detect a loss,
then update the tracked stock count unconditionally. -/
def stockStep (now : ℤ) (frame : FrameData) (i : ℕ)
    (p : Option FramePlayer) (st : GameState) : GameState :=
  match p with
  | none => st
  | some fp =>
    let currentStocks := fp.stocksRemaining
    let previousStocks := st.lastStockCounts i
    let st1 :=
      if currentStocks < previousStocks then
        handleStockLost now i (previousStocks - currentStocks) frame st
      else st
    { st1 with
      lastStockCounts := Function.update st1.lastStockCounts i currentStocks }

/-- The indexed `forEach` of `_checkStockChanges`, starting at index
`i`. -/
def checkStockChangesAux (now : ℤ) (frame : FrameData) :
    ℕ → List (Option FramePlayer) → GameState → GameState
  | _, [], st => st
  | i, p :: ps, st =>
    checkStockChangesAux now frame (i + 1) ps (stockStep now frame i p st)

/-- Embedding of `_checkStockChanges` (lines 606–625); `ps` is the
frame's player array (present, since line 556 returned otherwise). -/
def checkStockChanges (now : ℤ) (frame : FrameData)
    (ps : List (Option FramePlayer)) (st : GameState) : GameState :=
  checkStockChangesAux now frame 0 ps st

/-- Floor of a rational as an integer (`q.den` is positive, so integer
flooring division of numerator by denominator). -/
def ratFloor (q : ℚ) : ℤ := q.num.fdiv q.den

/-- JavaScript `parseFloat(x.toFixed(1))`: rounding a percent to one
decimal place (round to nearest, modelled half-up on `ℚ`). -/
def toFixed1 (q : ℚ) : ℚ := ((ratFloor (q * 10 + 1 / 2) : ℤ) : ℚ) / 10

/-- The `frameUpdateEvent.players` snapshot built in `_processFrameData`
(lines 567–582): iterate the roster, skip players without frame data,
record rounded percent and current stocks. -/
def frameUpdateSnapshot (roster : List PlayerInfo)
    (ps : List (Option FramePlayer)) : List (ℕ × ℚ × ℤ) :=
  roster.filterMap (fun player =>
    match ps.get? player.index with
    | some (some fd) => some (player.index, toFixed1 fd.percent, fd.stocksRemaining)
    | _ => none)

/-- The heartbeat block of `_processFrameData` (lines 559–585): on every
300th frame, subject to the `FRAME_UPDATE` throttle, enqueue one
`frameUpdate` pending event carrying the per-player snapshot. -/
def processHeartbeat (now : ℤ) (frame : FrameData)
    (ps : List (Option FramePlayer)) (st : GameState) : GameState :=
  if frame.frame % 300 = 0 then
    let r := canTriggerEventType .FRAME_UPDATE now st.lastEventTimes
    if r.1 then
      { st with
        lastEventTimes := r.2
        pending := st.pending ++
          [CoachEvent.frameUpdate frame.frame
            (frameUpdateSnapshot st.players ps)] }
    else st
  else st

/-- A combo record as delivered by the stats engine
(`stats.combos` entries consumed by `_processNewCombos`). -/
structure ComboInput where
  playerIndex : ℕ
  startFrame : ℤ
  endFrame : ℤ
  moves : List ℤ
  percent : Option ℚ
  startPercent : ℚ
  endPercent : ℚ
deriving DecidableEq, Repr

/-- The duplicate test of the `newCombos` filter (lines 685–688). -/
def comboSeen (evs : List ComboEvent) (c : ComboInput) : Bool :=
  evs.any (fun e =>
    decide (e.playerIndex = c.playerIndex ∧ e.startFrame = c.startFrame))

/-- The `newCombos` filter of `_processNewCombos` (lines 682–689):
at least 2 hits and not previously recorded for this match. -/
def novelCombos (evs : List ComboEvent) (combos : List ComboInput) :
    List ComboInput :=
  combos.filter (fun c => decide (2 ≤ c.moves.length) && !(comboSeen evs c))

/-- Combo damage: `combo.percent`, defaulting to
`endPercent - startPercent` when undefined (lines 694–696). -/
def comboDamage (c : ComboInput) : ℚ :=
  c.percent.getD (c.endPercent - c.startPercent)

/-- The combo record pushed onto `gameState.comboEvents`
(lines 699–705). -/
def mkComboEvent (c : ComboInput) : ComboEvent :=
  { playerIndex := c.playerIndex, startFrame := c.startFrame,
    endFrame := c.endFrame, moves := c.moves.length,
    damage := comboDamage c }

/-- The body of the `newCombos.forEach` in `_processNewCombos`
(lines 692–736): record the combo first, then throttle-check, and only
on admission enqueue the pending commentary event. -/
def comboStep (now : ℤ) (st : GameState) (c : ComboInput) : GameState :=
  let st1 := { st with comboEvents := st.comboEvents ++ [mkComboEvent c] }
  let comboType :=
    if 4 ≤ c.moves.length then EventType.SIGNIFICANT_COMBO
    else EventType.MINOR_COMBO
  let r := canTriggerEventType comboType now st1.lastEventTimes
  if r.1 then
    { st1 with
      lastEventTimes := r.2
      pending := st1.pending ++
        [CoachEvent.combo c.playerIndex c.moves.length (comboDamage c)
          (playerCharacterAt st1 c.playerIndex) c.startFrame c.endFrame] }
  else st1

/-- Embedding of `_processNewCombos` (lines 676–737). The novelty filter
is computed once against the pre-call `comboEvents`, as in the source. -/
def processNewCombos (now : ℤ) (combos : List ComboInput)
    (st : GameState) : GameState :=
  if combos.isEmpty then st
  else (novelCombos st.comboEvents combos).foldl (comboStep now) st

/-- Embedding of `_processFrameData` (lines 552–599): guard on missing
player data, then heartbeat, stock-change detection, and combo
processing, in source order. -/
def processFrameData (now : ℤ) (frame : FrameData)
    (combos : List ComboInput) (st : GameState) : GameState :=
  match frame.players with
  | none => st
  | some ps =>
    let st1 := processHeartbeat now frame ps st
    let st2 := checkStockChanges now frame ps st1
    processNewCombos now combos st2

/-- One delivery to `_processFrameData`: wall-clock time, the latest
frame, and the stats engine's combo list at that moment. -/
structure FrameTick where
  now : ℤ
  frame : FrameData
  combos : List ComboInput

/-- A sequence of frame deliveries to one match. -/
def processFrames (ticks : List FrameTick) (st : GameState) : GameState :=
  ticks.foldl (fun st tk => processFrameData tk.now tk.frame tk.combos st) st

/-- Per-player stock-loss total of `_generateGameAnalysis`
(lines 791–798): the fold of the recorded stock event history. -/
def stocksLostByPlayer (evs : List StockEvent) (p : ℕ) : ℤ :=
  evs.foldl (fun acc ev =>
    if ev.playerIndex = p then acc + ev.stocksLost else acc) 0

/-- Per-player combo list of `_generateGameAnalysis` (lines 801–812). -/
def combosByPlayer (evs : List ComboEvent) (p : ℕ) : List ComboEvent :=
  evs.foldl (fun acc e => if e.playerIndex = p then acc ++ [e] else acc) []

/-- Per-player damage total of `_generateGameAnalysis`
(lines 801–812). -/
def totalDamageByPlayer (evs : List ComboEvent) (p : ℕ) : ℚ :=
  evs.foldl (fun acc e => if e.playerIndex = p then acc + e.damage else acc) 0

/-- The stock observation a frame's player array carries for player `p`
(the value `_checkStockChanges` writes into `lastStockCounts[p]`). -/
def lastObs (ps : List (Option FramePlayer)) (p : ℕ) : Option ℤ :=
  match ps.get? p with
  | some (some fp) => some fp.stocksRemaining
  | _ => none

/-- The stock observations delivered for player `p` along a tick
sequence (one entry per frame that carries data for `p`). -/
def observedStocks (ticks : List FrameTick) (p : ℕ) : List ℤ :=
  ticks.filterMap (fun tk =>
    match tk.frame.players with
    | some ps => lastObs ps p
    | none => none)

/-- Frame 1: player 0 observed at 3 stocks. -/
def exFrameC5a : FrameData := ⟨1, some [some ⟨0, 3, 0⟩]⟩

/-- Frame 2: player 0 observed back at 4 stocks. -/
def exFrameC5b : FrameData := ⟨2, some [some ⟨0, 4, 0⟩]⟩

/-- Two frames with strictly increasing frame numbers whose stock
observations for player 0 are 3 then 4. -/
def exTicksC5 : List FrameTick :=
  [⟨100000, exFrameC5a, []⟩, ⟨100100, exFrameC5b, []⟩]

/-- One-player roster used by the concrete runs. -/
def exRoster : List PlayerInfo := [⟨0, 1, "Fox"⟩]

/-- Frames observing stocks 3 then 2 for player 0 (a non-increasing
chain), used as the witness run for C5. -/
def wTicksC5 : List FrameTick :=
  [⟨100000, ⟨1, some [some ⟨0, 3, 0⟩]⟩, []⟩,
   ⟨105000, ⟨2, some [some ⟨0, 2, 0⟩]⟩, []⟩]

/-- Frame 100: player 0 drops 4 → 3 (detected, admitted). -/
def exFrameC2a : FrameData := ⟨100, some [some ⟨0, 3, 0⟩]⟩

/-- Frame 160: player 0 drops 3 → 2 (detected, throttled: 200 ms after
the first admission, below the 1000 ms `STOCK_LOSS` threshold). -/
def exFrameC2b : FrameData := ⟨160, some [some ⟨0, 2, 0⟩]⟩

/-- Two stock-loss detections 200 ms apart in wall-clock time. -/
def exTicksC2 : List FrameTick :=
  [⟨100000, exFrameC2a, []⟩, ⟨100200, exFrameC2b, []⟩]

/-- The frame used by the C9 witness: player 0 drops 4 → 3. -/
def wFrameC9 : FrameData := ⟨300, some [some ⟨50, 3, 0⟩]⟩

/-- The player array of `wFrameC9`. -/
def wPsC9 : List (Option FramePlayer) := [some ⟨50, 3, 0⟩]

/-- Frame 300 of the heartbeat runs: player 0 at 50 %, 4 stocks. -/
def exF300 : FrameData := ⟨300, some [some ⟨50, 4, 0⟩]⟩

/-- Frame 600, same player data, delivered 5 000 ms after frame 300. -/
def exF600 : FrameData := ⟨600, some [some ⟨50, 4, 0⟩]⟩

/-- The player array of `exF300`. -/
def wPsC4 : List (Option FramePlayer) := [some ⟨50, 4, 0⟩]

/-- The `splice(0, PENDING_EVENTS_LIMIT)` bound of
`_processPendingEvents`. -/
def PENDING_EVENTS_LIMIT : ℕ := 3

/-- State of the global event batcher: the per-match pending queues
(`this.pendingEvents`, an object keyed by file path, modelled as a
key-ordered association list over match handles), whether
`gameByPath[f].state` exists for a handle, and whether the
`setInterval` drain timer is currently installed. -/
structure BatcherState where
  pendingEvents : List (ℕ × List CoachEvent)
  hasState : ℕ → Bool
  intervalRunning : Bool

/-- Append an event to one match's queue, preserving object-key
insertion order: update the key in place when present, else add it at
the end. -/
def pushPending : List (ℕ × List CoachEvent) → ℕ → CoachEvent →
    List (ℕ × List CoachEvent)
  | [], f, ev => [(f, [ev])]
  | (g, q) :: rest, f, ev =>
    if g = f then (g, q ++ [ev]) :: rest
    else (g, q) :: pushPending rest f ev

/-- Embedding of `_addPendingEvent` (lines 166–177): enqueue the event
and ensure the drain interval is running. -/
def addPendingEvent (f : ℕ) (ev : CoachEvent) (st : BatcherState) :
    BatcherState :=
  { st with
    pendingEvents := pushPending st.pendingEvents f ev
    intervalRunning := true }

/-- One map entry of a `_processPendingEvents` tick: a non-empty queue
belonging to a match with game state releases its oldest
`PENDING_EVENTS_LIMIT` events (`events.splice(0, 3)`) as one batch;
otherwise the entry is untouched (`continue`). -/
def drainEntry (hasState : ℕ → Bool) (e : ℕ × List CoachEvent) :
    (ℕ × List CoachEvent) × Option (ℕ × List CoachEvent) :=
  if e.2.isEmpty then (e, none)
  else if hasState e.1 then
    ((e.1, e.2.drop PENDING_EVENTS_LIMIT),
     some (e.1, e.2.take PENDING_EVENTS_LIMIT))
  else (e, none)

/-- Embedding of `_processPendingEvents` (lines 182–226): drain every
match's queue once, then clear the interval when no queue has pending
events left. Returns the new state together with the batches released
during this tick. -/
def processPendingEvents (st : BatcherState) :
    BatcherState × List (ℕ × List CoachEvent) :=
  let results := st.pendingEvents.map (drainEntry st.hasState)
  let newPending := results.map (fun r => r.1)
  let released := results.filterMap (fun r => r.2)
  let hasPending := newPending.any (fun e => !e.2.isEmpty)
  ({ st with
      pendingEvents := newPending
      intervalRunning := if hasPending then st.intervalRunning else false },
   released)

/-- The successive batches one queue releases over `n` drain ticks with
no interleaved enqueues (each tick takes the 3 oldest events and leaves
the rest). -/
def drainChunks : ℕ → List CoachEvent → List (List CoachEvent)
  | 0, _ => []
  | _ + 1, [] => []
  | n + 1, q => q.take PENDING_EVENTS_LIMIT ::
      drainChunks n (q.drop PENDING_EVENTS_LIMIT)

/-- A throttle-free sample pending event. -/
def wEv (n : ℤ) : CoachEvent := CoachEvent.actionState 0 "tech" n

/-- A batcher state with one tracked match holding four queued events. -/
def wBatchSt : BatcherState :=
  ⟨[(0, [wEv 1, wEv 2, wEv 3, wEv 4])], fun _ => true, true⟩

/-- A batcher state with one tracked match holding a single queued
event; one tick leaves every queue empty. -/
def wBatchSt1 : BatcherState :=
  ⟨[(0, [wEv 1])], fun _ => true, true⟩

/-- A gameplay event as consumed by the narration layer
(`src/liveCommentary.js`, provider-abstraction version, and
`src/templateCommentarySystem.js`): a loosely-typed record whose `type`
tag is a string (an unrecognized tag falls through to the catch-all
default), and whose remaining fields may each be absent (`none` models
JavaScript `undefined`; an absent `type` is modelled by `""`, which the
source treats as falsy exactly like `undefined`). -/
structure JSEvent where
  type : String
  playerIndex : Option ℕ
  isHuman : Option Bool
  playerCharacter : Option String
  moves : Option ℕ
  damage : Option ℚ
  subType : Option String
  detailsAerial : Option String
  detailsTechType : Option String
  remainingStocks : Option ℤ
  stocksLost : Option ℤ
  matchup : List String
  stage : Option ℤ
  endType : Option String
  lrasQuitter : Option ℕ
  winnerIndex : Option ℤ
  frame : Option ℤ
  players : List (ℕ × ℚ × ℤ)
deriving DecidableEq, Repr

/-- JavaScript `value || fallback` for an optional string: `undefined`
and `""` are both falsy. -/
def orDefault (s : Option String) (d : String) : String :=
  match s with
  | some v => if v = "" then d else v
  | none => d

/-- JavaScript `moves || '?'`: an absent hit count or the falsy `0`
render as `?`. -/
def movesStr (m : Option ℕ) : String :=
  match m with
  | some v => if v = 0 then "?" else toString v
  | none => "?"

/-- Rendering of `x.toFixed(1)`. Only the existence of the string (not
its digits) matters to any property proved here. -/
def toFixed1Str (q : ℚ) : String := toString (toFixed1 q)

/-- Selection by `templates[Math.floor(Math.random() * 3)]`: the random choice
among a template triple, driven by an explicit seed. -/
def pick3 (a b c : String) (seed : ℕ) : String :=
  if seed % 3 = 0 then a else if seed % 3 = 1 then b else c

/-- Embedding of `generateComboTemplate` (`src/templateCommentarySystem.js` lines
44–60). -/
def generateComboTemplate (event : JSEvent) (seed : ℕ) : String :=
  let performer := if event.isHuman = some false then "CPU" else "Player"
  let safeCharacter := orDefault event.playerCharacter "Fighter"
  let safeMoves := movesStr event.moves
  let safeDamage :=
    match event.damage with
    | some d => toFixed1Str d
    | none => "?"
  pick3
    (performer ++ "\x27s " ++ safeCharacter ++ " lands a " ++ safeMoves ++
      "-hit combo for " ++ safeDamage ++ "%!")
    (safeMoves ++ " hits from " ++ safeCharacter ++ " dealing " ++
      safeDamage ++ "% damage!")
    (safeCharacter ++ " extends the punish with a " ++ safeMoves ++
      "-piece for " ++ safeDamage ++ "%!")
    seed

/-- Embedding of `generateStockLostTemplate` (lines 67–82). -/
def generateStockLostTemplate (event : JSEvent) (seed : ℕ) : String :=
  let player := if event.isHuman = some false then "CPU" else "Player"
  let safeCharacter := orDefault event.playerCharacter "Fighter"
  let safeStocks :=
    match event.remainingStocks with
    | some r => toString r
    | none => "?"
  pick3
    (player ++ "\x27s " ++ safeCharacter ++ " loses a stock! " ++
      safeStocks ++ " remaining.")
    (safeCharacter ++ " gets sent to the blast zone! " ++ safeStocks ++
      " stocks left.")
    ("Down goes " ++ safeCharacter ++ "! " ++ safeStocks ++
      " stocks remaining.")
    seed

/-- Embedding of `generateActionStateTemplate` (lines 89–157). -/
def generateActionStateTemplate (event : JSEvent) (seed : ℕ) : String :=
  let safeCharacter := orDefault event.playerCharacter "Fighter"
  if event.subType = some "wavedash-land" then
    pick3
      ("Perfect wavedash from " ++ safeCharacter ++ "!")
      ("Clean wavedash to reposition by " ++ safeCharacter ++ ".")
      (safeCharacter ++ " executes a frame-perfect wavedash.")
      seed
  else if event.subType = some "l-cancel-attempt" then
    let aerialType := orDefault event.detailsAerial "aerial"
    pick3
      (safeCharacter ++ " L-cancels that " ++ aerialType ++ "!")
      ("Nice L-cancel on the " ++ aerialType ++ " from " ++ safeCharacter ++ ".")
      ("Quick L-cancel to maintain pressure by " ++ safeCharacter ++ ".")
      seed
  else if event.subType = some "tech" then
    let techType := orDefault event.detailsTechType "tech"
    pick3
      (safeCharacter ++ " techs " ++ techType ++ "!")
      ("Good " ++ techType ++ " tech by " ++ safeCharacter ++ ".")
      (safeCharacter ++ " saves position with a " ++ techType ++ " tech.")
      seed
  else if event.subType = some "tech-miss" then
    pick3
      (safeCharacter ++ " misses the tech!")
      ("No tech from " ++ safeCharacter ++ "!")
      (safeCharacter ++ " fails to tech that hit.")
      seed
  else if event.subType = some "shield" then
    pick3
      (safeCharacter ++ " shields the attack.")
      ("Quick defensive shield from " ++ safeCharacter ++ ".")
      (safeCharacter ++ " puts up the shield.")
      seed
  else if event.subType = some "grab" then
    pick3
      (safeCharacter ++ " gets the grab!")
      ("Grab opportunity for " ++ safeCharacter ++ ".")
      (safeCharacter ++ " secures a grab.")
      seed
  else if event.subType = some "recovery" then
    pick3
      (safeCharacter ++ " recovers with up-B.")
      ("Recovery attempt from " ++ safeCharacter ++ ".")
      (safeCharacter ++ " uses up-B to get back.")
      seed
  else
    "Technical execution from " ++ safeCharacter ++ "!"

/-- Embedding of `generateGameStartTemplate` (lines 165–183). The stage-name table
`STAGE_NAMES` lives in `src/utils/constants.js`, which is not among the
sources, so it is passed in as `stageNames`. -/
def generateGameStartTemplate (stageNames : ℤ → Option String)
    (event : JSEvent) (seed : ℕ) : String :=
  let stageName :=
    match event.stage with
    | some id => orDefault (stageNames id) ("Stage " ++ toString id)
    | none => "Stage undefined"
  if event.matchup.length < 2 then
    "Match starting on " ++ stageName ++ "!"
  else
    let c0 := event.matchup.getD 0 ""
    let c1 := event.matchup.getD 1 ""
    pick3
      ("Match starting: " ++ c0 ++ " vs " ++ c1 ++ " on " ++ stageName ++ "!")
      ("Here we go! " ++ c0 ++ " facing off against " ++ c1 ++ " on " ++
        stageName ++ ".")
      ("Battle begins between " ++ c0 ++ " and " ++ c1 ++ " on " ++
        stageName ++ ". Let\x27s see some tech skill!")
      seed

/-- Embedding of `generateGameEndTemplate` (lines 191–223). -/
def generateGameEndTemplate (event : JSEvent)
    (gameState : Option (List PlayerInfo)) (seed : ℕ) : String :=
  match event.endType, event.lrasQuitter with
  | some "No Contest", some q =>
    "Game ended early - Player " ++ toString (q + 1) ++ " has left the match."
  | _, _ =>
    let resolved :=
      match gameState, event.winnerIndex with
      | some players, some w =>
        if w = -1 then ("The winner", "the opponent")
        else
          let winner :=
            match players.find? (fun (p : PlayerInfo) => (p.index : ℤ) == w) with
            | some p =>
              if p.character = "" then
                "Player " ++ toString (if p.port = 0 then w + 1 else p.port)
              else p.character
            | none => "The winner"
          let loser :=
            match players.find? (fun (p : PlayerInfo) => !((p.index : ℤ) == w)) with
            | some p =>
              if p.character = "" then
                "Player " ++ toString (if p.port = 0 then (p.index : ℤ) + 1 else p.port)
              else p.character
            | none => "the opponent"
          (winner, loser)
      | _, _ => ("The winner", "the opponent")
    pick3
      ("Game! " ++ resolved.1 ++ " takes the victory over " ++ resolved.2 ++ ".")
      ("That\x27s it! " ++ resolved.1 ++ " clutches out the win against " ++
        resolved.2 ++ ".")
      ("Match complete! " ++ resolved.1 ++ " bests " ++ resolved.2 ++
        " in a hard-fought set.")
      seed

/-- JavaScript `padStart(2, \x270\x27)` on a digit string. -/
def pad2 (s : String) : String :=
  if 2 ≤ s.length then s
  else String.mk (List.replicate (2 - s.length) '0') ++ s

/-- Embedding of `generateFrameUpdateTemplate` (lines 231–253). JavaScript `%` is
truncated remainder (`Int.tmod`) and `Math.floor` of a division is
flooring division (`Int.fdiv`); an absent frame number renders as the
`NaN` string, as division of `undefined` does. -/
def generateFrameUpdateTemplate (event : JSEvent) (seed : ℕ) : String :=
  let gameMinuteStr :=
    match event.frame with
    | some fr => toString (fr.fdiv 3600)
    | none => "NaN"
  let gameSecondStr :=
    match event.frame with
    | some fr => toString ((fr.tmod 3600).fdiv 60)
    | none => "NaN"
  let minuteNe1 : Bool :=
    match event.frame with
    | some fr => fr.fdiv 3600 != 1
    | none => true
  let percentageText :=
    match event.players with
    | (_, p0, _) :: (_, p1, _) :: _ =>
      " with " ++ toString p0 ++ "% vs " ++ toString p1 ++ "%"
    | _ => ""
  pick3
    (gameMinuteStr ++ ":" ++ pad2 gameSecondStr ++ " on the clock" ++
      percentageText ++ ".")
    ("The match continues at " ++ gameMinuteStr ++ ":" ++ pad2 gameSecondStr ++
      percentageText ++ ".")
    (gameMinuteStr ++ " minute" ++ (if minuteNe1 then "s" else "") ++ " in" ++
      percentageText ++ ", let\x27s see who takes control.")
    seed

/-- Embedding of `generateTemplateCommentary` (`src/templateCommentarySystem.js`
lines 10–37): dispatch on the event's `type` tag, with a catch-all
default phrase for unrecognized tags. -/
def generateTemplateCommentary (stageNames : ℤ → Option String)
    (event : JSEvent) (gameState : Option (List PlayerInfo)) (seed : ℕ) :
    String :=
  if event.type = "combo" then generateComboTemplate event seed
  else if event.type = "stockLost" then generateStockLostTemplate event seed
  else if event.type = "actionState" then generateActionStateTemplate event seed
  else if event.type = "gameStart" then
    generateGameStartTemplate stageNames event seed
  else if event.type = "gameEnd" then
    generateGameEndTemplate event gameState seed
  else if event.type = "frameUpdate" then
    generateFrameUpdateTemplate event seed
  else "The match continues!"

/-- Modelled from the spec: `CACHE_EXPIRY.COMMENTARY` is imported from
`src/utils/constants.js`, which is not among the sources; the spec fixes
the narration-cache TTL at 30 s (30 000 ms). -/
def CACHE_EXPIRY_COMMENTARY : ℤ := 30000

/-- Embedding of `generateCacheKey` (`src/liveCommentary.js` lines 558–575): key on
the first event's type tag, player index, a per-type discriminator, and
the commentary style. Falsy numeric fields (absent or zero) render as
`?`. -/
def generateCacheKey (event : JSEvent) (style : String) : String :=
  let eventType := if event.type = "" then "unknown" else event.type
  let playerIndexStr :=
    match event.playerIndex with
    | some i => toString i
    | none => "na"
  let additionalKey :=
    if eventType = "combo" then
      movesStr event.moves ++ "-" ++
        (match event.damage with
         | some d => if d = 0 then "?" else toString d
         | none => "?")
    else if eventType = "stockLost" then
      (match event.remainingStocks with
       | some r => if r = 0 then "?" else toString r
       | none => "?")
    else if eventType = "actionState" then orDefault event.subType "generic"
    else "default"
  eventType ++ "-" ++ playerIndexStr ++ "-" ++ additionalKey ++ "-" ++ style

/-- Lookup `commentaryCache.get(key)`: the narration cache as an association
list of (key, commentary, timestamp). -/
def cacheGet (cache : List (String × String × ℤ)) (key : String) :
    Option (String × ℤ) :=
  match cache.find? (fun e => e.1 == key) with
  | some e => some e.2
  | none => none

/-- Removal `commentaryCache.delete(key)`. -/
def cacheDelete (cache : List (String × String × ℤ)) (key : String) :
    List (String × String × ℤ) :=
  cache.filter (fun e => !(e.1 == key))

/-- Insertion `commentaryCache.set(key, ...)` of a commentary with its timestamp. -/
def cacheSet (cache : List (String × String × ℤ)) (key c : String)
    (t : ℤ) : List (String × String × ℤ) :=
  (key, c, t) :: cacheDelete cache key

/-- Result of one narration request: the returned text, the cache
afterwards, and whether `llmProvider.generateCompletion` was invoked. -/
structure NarrationResult where
  text : String
  cache : List (String × String × ℤ)
  providerInvoked : Bool
deriving DecidableEq, Repr

/-- Embedding of `provideLiveCommentary` (`src/liveCommentary.js` lines
374–450, provider-abstraction version). `provider = none` models a null
`llmProvider`; `provider = some r` models a configured provider whose
`generateCompletion` call yields `r` (a text on success, a thrown error
otherwise). The wall clock `Date.now()` is `now` and the random template
selection is driven by `seed`. Only the first event of the batch is
parsed and keyed, as in the source. -/
def provideLiveCommentary (provider : Option (Except Unit String))
    (events : List JSEvent) (style : String)
    (gameState : Option (List PlayerInfo)) (stageNames : ℤ → Option String)
    (now : ℤ) (seed : ℕ) (cache : List (String × String × ℤ)) :
    NarrationResult :=
  match events with
  | [] => ⟨"", cache, false⟩
  | event :: _ =>
    let cacheKey := generateCacheKey event style
    let afterCache := fun (cache1 : List (String × String × ℤ)) =>
      match provider with
      | none =>
        let commentary := generateTemplateCommentary stageNames event gameState seed
        ⟨commentary,
          if commentary = "" then cache1 else cacheSet cache1 cacheKey commentary now,
          false⟩
      | some (Except.ok commentary) =>
        ⟨if commentary = "" then "Exciting gameplay!" else commentary,
          if commentary = "" then cache1 else cacheSet cache1 cacheKey commentary now,
          true⟩
      | some (Except.error _) =>
        ⟨generateTemplateCommentary stageNames event gameState seed, cache1, true⟩
    match cacheGet cache cacheKey with
    | some (c, ts) =>
      if now - ts < CACHE_EXPIRY_COMMENTARY then ⟨c, cache, false⟩
      else afterCache (cacheDelete cache cacheKey)
    | none => afterCache cache

/-- The concrete event used by the narration witnesses: a 3-hit combo
for 25.5 % by player 0's Fox. -/
def wEventC6 : JSEvent :=
  { type := "combo"
    playerIndex := some 0
    isHuman := none
    playerCharacter := some "Fox"
    moves := some 3
    damage := some (51 / 2)
    subType := none
    detailsAerial := none
    detailsTechType := none
    remainingStocks := none
    stocksLost := none
    matchup := []
    stage := none
    endType := none
    lrasQuitter := none
    winnerIndex := none
    frame := some 480
    players := [] }

/-- The `damagePerStock` expression of `calculatePerformanceRating`
(`src/aiCoaching.js` line 181): `stocksLost > 0 ? damageDealt/stocksLost
: (damageDealt > 0 ? Infinity : 0)`, with `none` standing for the IEEE
`Infinity` that JavaScript produces there. -/
def damagePerStock (damageDealt stocksLost : ℚ) : Option ℚ :=
  if 0 < stocksLost then some (damageDealt / stocksLost)
  else if 0 < damageDealt then none
  else some 0

/-- Embedding of `calculatePerformanceRating` (`src/aiCoaching.js` lines
169–215), score component, on real (non-NaN) numeric inputs: the branch
chain on `damagePerStock`, with `Math.floor` as flooring division and
`Math.min/Math.max` clamping. -/
def calculatePerformanceRating (damageDealt stocksLost : ℚ) : ℤ :=
  match damagePerStock damageDealt stocksLost with
  | none => 10
  | some dps =>
    if dps = 0 ∧ 0 < stocksLost then 1
    else if dps = 0 ∧ stocksLost = 0 then 5
    else min 10 (max 1 (ratFloor (dps / 20)))

lemma canTriggerEventType_fst (ev : EventType) (now : ℤ)
    (times : EventType → ℤ) :
    (canTriggerEventType ev now times).1 =
      decide (threshold ev ≤ now - times ev) := by
  unfold canTriggerEventType
  by_cases h : now - times ev < threshold ev
  · simp [h, not_le.mpr h]
  · simp [h, not_lt.mp h]

lemma canTriggerEventType_snd_of_refused (ev : EventType) (now : ℤ)
    (times : EventType → ℤ)
    (h : (canTriggerEventType ev now times).1 = false) :
    (canTriggerEventType ev now times).2 = times := by
  unfold canTriggerEventType at *
  by_cases hc : now - times ev < threshold ev
  · simp [hc]
  · simp [hc] at h

lemma canTriggerEventType_snd_of_admitted (ev : EventType) (now : ℤ)
    (times : EventType → ℤ)
    (h : (canTriggerEventType ev now times).1 = true) :
    (canTriggerEventType ev now times).2 = Function.update times ev now := by
  unfold canTriggerEventType at *
  by_cases hc : now - times ev < threshold ev
  · simp [hc] at h
  · simp [hc]

/-- Once the throttle state records an admission at or after time `a`,
no attempt strictly inside the window `(-∞, a + threshold)` is admitted. -/
lemma admitRun_all_refused (ev : EventType) (a : ℤ) :
    ∀ (ts : List ℤ) (times : EventType → ℤ),
      (∀ t ∈ ts, t < a + threshold ev) → a ≤ times ev →
      (admitRun ev times ts).count true = 0 := by
  intro ts
  induction ts with
  | nil => intro times _ _; rfl
  | cons t ts ih =>
    intro times hwin hlast
    have ht : t < a + threshold ev := hwin t (by simp)
    have href : (canTriggerEventType ev t times).1 = false := by
      rw [canTriggerEventType_fst]
      have : t - times ev < threshold ev := by omega
      simp [not_le.mpr this]
    have hsnd := canTriggerEventType_snd_of_refused ev t times href
    show List.count true ((canTriggerEventType ev t times).1 ::
      admitRun ev (canTriggerEventType ev t times).2 ts) = 0
    rw [href, hsnd]
    simp only [List.count_cons]
    have := ih times (fun t' ht' => hwin t' (by simp [ht'])) hlast
    simp [this]

/-- At most one admission of a class happens inside any time window
shorter than its threshold (the attempts need not be time-ordered). -/
lemma admitRun_window_le_one (ev : EventType) (a : ℤ) :
    ∀ (ts : List ℤ) (times : EventType → ℤ),
      (∀ t ∈ ts, a ≤ t ∧ t < a + threshold ev) →
      (admitRun ev times ts).count true ≤ 1 := by
  intro ts
  induction ts with
  | nil => intro times _; simp [admitRun]
  | cons t ts ih =>
    intro times hwin
    obtain ⟨hta, htb⟩ := hwin t (by simp)
    show List.count true ((canTriggerEventType ev t times).1 ::
      admitRun ev (canTriggerEventType ev t times).2 ts) ≤ 1
    by_cases hadm : (canTriggerEventType ev t times).1 = true
    · have hsnd := canTriggerEventType_snd_of_admitted ev t times hadm
      rw [hadm, hsnd]
      have hrest := admitRun_all_refused ev a ts
        (Function.update times ev t)
        (fun t' ht' => (hwin t' (by simp [ht'])).2)
        (by simp [Function.update_same, hta])
      simp [List.count_cons, hrest]
    · have hfalse : (canTriggerEventType ev t times).1 = false := by
        simpa using hadm
      have hsnd := canTriggerEventType_snd_of_refused ev t times hfalse
      rw [hfalse, hsnd]
      have := ih times (fun t' ht' => hwin t' (by simp [ht']))
      simpa [List.count_cons] using this

/-- C1: event admission is a per-(match, class) rate limiter: for a
tracked match and a non-lifecycle class, a candidate event is admitted iff
`now - lastAdmittedAt[class] ≥ threshold`, on admission the timestamp for
that class is updated to `now` before the decision is returned (and no
other class's timestamp changes, nor anything on refusal), and
consequently at most one `STOCK_LOSS`-class event is admitted within any
window shorter than its 1000 ms threshold, however many stock-loss
attempts occur in that window. -/
theorem C1_event_admission_rate_limiter :
    (∀ (ev : EventType) (now : ℤ) (times : EventType → ℤ),
        ((canTriggerEventType ev now times).1 = true ↔
          threshold ev ≤ now - times ev)) ∧
    (∀ (ev : EventType) (now : ℤ) (times : EventType → ℤ),
        ((canTriggerEventType ev now times).1 = true →
          (canTriggerEventType ev now times).2 =
            Function.update times ev now) ∧
        ((canTriggerEventType ev now times).1 = false →
          (canTriggerEventType ev now times).2 = times)) ∧
    (∀ (a : ℤ) (ts : List ℤ) (times : EventType → ℤ),
        (∀ t ∈ ts, a ≤ t ∧ t < a + 1000) →
        (admitRun .STOCK_LOSS times ts).count true ≤ 1) := by
  refine ⟨?_, ?_, ?_⟩
  · intro ev now times
    rw [canTriggerEventType_fst]
    simp
  · intro ev now times
    exact ⟨canTriggerEventType_snd_of_admitted ev now times,
      canTriggerEventType_snd_of_refused ev now times⟩
  · intro a ts times h
    exact admitRun_window_le_one .STOCK_LOSS a ts times h

/-- Witness for C1 at concrete inputs: with a fresh throttle state, an
attempt at time 100000 is admitted and updates the timestamp, while two
stock-loss attempts 200 ms apart yield exactly one admission. -/
theorem C1_event_admission_rate_limiter_witness :
    ((canTriggerEventType .STOCK_LOSS 100000 (fun _ => 0)).1 = true ↔
      threshold .STOCK_LOSS ≤ 100000 - 0) ∧
    (admitRun .STOCK_LOSS (fun _ => 0) [100000, 100200]).count true ≤ 1 := by
  constructor
  · simpa using C1_event_admission_rate_limiter.1 .STOCK_LOSS 100000 (fun _ => 0)
  · exact C1_event_admission_rate_limiter.2.2 100000 [100000, 100200]
      (fun _ => 0) (by intro t ht; simp at ht; rcases ht with h | h <;> omega)

lemma handleStockLost_players (now : ℤ) (i : ℕ) (k : ℤ) (frame : FrameData)
    (st : GameState) : (handleStockLost now i k frame st).players = st.players := by
  unfold handleStockLost
  cases h : (canTriggerEventType .STOCK_LOSS now st.lastEventTimes).1 <;> simp [h]

lemma handleStockLost_lastStockCounts (now : ℤ) (i : ℕ) (k : ℤ)
    (frame : FrameData) (st : GameState) :
    (handleStockLost now i k frame st).lastStockCounts = st.lastStockCounts := by
  unfold handleStockLost
  cases h : (canTriggerEventType .STOCK_LOSS now st.lastEventTimes).1 <;> simp [h]

lemma handleStockLost_comboEvents (now : ℤ) (i : ℕ) (k : ℤ)
    (frame : FrameData) (st : GameState) :
    (handleStockLost now i k frame st).comboEvents = st.comboEvents := by
  unfold handleStockLost
  cases h : (canTriggerEventType .STOCK_LOSS now st.lastEventTimes).1 <;> simp [h]

lemma handleStockLost_stockEvents_diff (now : ℤ) (i : ℕ) (k : ℤ)
    (frame : FrameData) (st : GameState) :
    ∃ new, (handleStockLost now i k frame st).stockEvents = st.stockEvents ++ new ∧
      ∀ ev ∈ new, ev.playerIndex = i ∧ ev.stocksLost = k ∧
        ev.remainingStocks = st.lastStockCounts i := by
  unfold handleStockLost
  cases h : (canTriggerEventType .STOCK_LOSS now st.lastEventTimes).1
  · exact ⟨[], by simp [h], by simp⟩
  · refine ⟨[(⟨now, frame.frame, i, k, st.lastStockCounts i⟩ : StockEvent)],
      by simp [h], ?_⟩
    intro ev hev
    simp at hev
    subst hev
    exact ⟨rfl, rfl, rfl⟩

lemma handleStockLost_pending_diff (now : ℤ) (i : ℕ) (k : ℤ)
    (frame : FrameData) (st : GameState) :
    ∃ new, (handleStockLost now i k frame st).pending = st.pending ++ new ∧
      ∀ e ∈ new, e.isFrameUpdate = false := by
  unfold handleStockLost
  cases h : (canTriggerEventType .STOCK_LOSS now st.lastEventTimes).1
  · exact ⟨[], by simp [h], by simp⟩
  · refine ⟨[CoachEvent.stockLost i k (st.lastStockCounts i)
      (playerCharacterAt st i) frame.frame], by simp [h], ?_⟩
    intro e he
    simp at he
    subst he
    rfl

lemma stockStep_players (now : ℤ) (frame : FrameData) (i : ℕ)
    (p : Option FramePlayer) (st : GameState) :
    (stockStep now frame i p st).players = st.players := by
  cases p with
  | none => rfl
  | some fp =>
    by_cases h : fp.stocksRemaining < st.lastStockCounts i <;>
      simp [stockStep, h, handleStockLost_players]

lemma stockStep_comboEvents (now : ℤ) (frame : FrameData) (i : ℕ)
    (p : Option FramePlayer) (st : GameState) :
    (stockStep now frame i p st).comboEvents = st.comboEvents := by
  cases p with
  | none => rfl
  | some fp =>
    by_cases h : fp.stocksRemaining < st.lastStockCounts i <;>
      simp [stockStep, h, handleStockLost_comboEvents]

lemma stockStep_lastStockCounts (now : ℤ) (frame : FrameData) (i : ℕ)
    (p : Option FramePlayer) (st : GameState) :
    (stockStep now frame i p st).lastStockCounts =
      match p with
      | some fp => Function.update st.lastStockCounts i fp.stocksRemaining
      | none => st.lastStockCounts := by
  cases p with
  | none => rfl
  | some fp =>
    by_cases h : fp.stocksRemaining < st.lastStockCounts i <;>
      simp [stockStep, h, handleStockLost_lastStockCounts]

lemma stockStep_lastStockCounts_ne (now : ℤ) (frame : FrameData) (i : ℕ)
    (p : Option FramePlayer) (st : GameState) (q : ℕ) (hq : q ≠ i) :
    (stockStep now frame i p st).lastStockCounts q = st.lastStockCounts q := by
  rw [stockStep_lastStockCounts]
  cases p with
  | none => rfl
  | some fp => simp [Function.update_noteq hq]

lemma stockStep_stockEvents_diff (now : ℤ) (frame : FrameData) (i : ℕ)
    (p : Option FramePlayer) (st : GameState) :
    ∃ new, (stockStep now frame i p st).stockEvents = st.stockEvents ++ new ∧
      ∀ ev ∈ new, ev.playerIndex = i ∧
        ev.remainingStocks = st.lastStockCounts i ∧ 0 < ev.stocksLost ∧
        (stockStep now frame i p st).lastStockCounts i =
          ev.remainingStocks - ev.stocksLost := by
  cases p with
  | none => exact ⟨[], by simp [stockStep], by simp⟩
  | some fp =>
    by_cases h : fp.stocksRemaining < st.lastStockCounts i
    · obtain ⟨new, hse, hprop⟩ := handleStockLost_stockEvents_diff now i
        (st.lastStockCounts i - fp.stocksRemaining) frame st
      refine ⟨new, by simp [stockStep, h, hse], ?_⟩
      intro ev hev
      obtain ⟨h1, h2, h3⟩ := hprop ev hev
      refine ⟨h1, h3, by omega, ?_⟩
      rw [stockStep_lastStockCounts]
      simp [Function.update_same]
      omega
    · refine ⟨[], ?_, by simp⟩
      simp [stockStep, h]

lemma stockStep_pending_diff (now : ℤ) (frame : FrameData) (i : ℕ)
    (p : Option FramePlayer) (st : GameState) :
    ∃ new, (stockStep now frame i p st).pending = st.pending ++ new ∧
      ∀ e ∈ new, e.isFrameUpdate = false := by
  cases p with
  | none => exact ⟨[], by simp [stockStep], by simp⟩
  | some fp =>
    by_cases h : fp.stocksRemaining < st.lastStockCounts i
    · obtain ⟨new, hpe, hprop⟩ := handleStockLost_pending_diff now i
        (st.lastStockCounts i - fp.stocksRemaining) frame st
      exact ⟨new, by simp [stockStep, h, hpe], hprop⟩
    · refine ⟨[], ?_, by simp⟩
      simp [stockStep, h]

lemma checkStockChangesAux_players (now : ℤ) (frame : FrameData) :
    ∀ (ps : List (Option FramePlayer)) (i : ℕ) (st : GameState),
      (checkStockChangesAux now frame i ps st).players = st.players := by
  intro ps
  induction ps with
  | nil => intro i st; rfl
  | cons p ps ih =>
    intro i st
    rw [checkStockChangesAux, ih, stockStep_players]

lemma checkStockChangesAux_comboEvents (now : ℤ) (frame : FrameData) :
    ∀ (ps : List (Option FramePlayer)) (i : ℕ) (st : GameState),
      (checkStockChangesAux now frame i ps st).comboEvents = st.comboEvents := by
  intro ps
  induction ps with
  | nil => intro i st; rfl
  | cons p ps ih =>
    intro i st
    rw [checkStockChangesAux, ih, stockStep_comboEvents]

lemma checkStockChangesAux_lastStockCounts_lt (now : ℤ) (frame : FrameData) :
    ∀ (ps : List (Option FramePlayer)) (i : ℕ) (st : GameState) (q : ℕ),
      q < i →
      (checkStockChangesAux now frame i ps st).lastStockCounts q =
        st.lastStockCounts q := by
  intro ps
  induction ps with
  | nil => intro i st q _; rfl
  | cons p ps ih =>
    intro i st q hq
    rw [checkStockChangesAux, ih (i + 1) _ q (by omega)]
    exact stockStep_lastStockCounts_ne now frame i p st q (by omega)

lemma checkStockChangesAux_lastStockCounts (now : ℤ) (frame : FrameData) :
    ∀ (ps : List (Option FramePlayer)) (i : ℕ) (st : GameState) (q : ℕ),
      (checkStockChangesAux now frame i ps st).lastStockCounts q =
        match (if i ≤ q then lastObs ps (q - i) else none) with
        | some v => v
        | none => st.lastStockCounts q := by
  intro ps
  induction ps with
  | nil =>
    intro i st q
    simp only [checkStockChangesAux, lastObs, List.get?]
    split <;> rename_i heq
    · split at heq <;> simp_all
    · rfl
  | cons p ps ih =>
    intro i st q
    rw [checkStockChangesAux, ih]
    rcases Nat.lt_trichotomy q i with hlt | heq | hgt
    · have h1 : ¬ (i + 1 ≤ q) := by omega
      have h2 : ¬ (i ≤ q) := by omega
      simp only [h1, if_neg, if_false]
      simp only [h2, if_false]
      exact stockStep_lastStockCounts_ne now frame i p st q (by omega)
    · subst heq
      have h1 : ¬ (q + 1 ≤ q) := by omega
      simp only [h1, if_false, le_refl, if_true, Nat.sub_self]
      rw [stockStep_lastStockCounts]
      cases p with
      | none => simp [lastObs]
      | some fp => simp [lastObs, Function.update_same]
    · have h1 : i + 1 ≤ q := by omega
      have h2 : i ≤ q := by omega
      have h3 : q - i = (q - (i + 1)) + 1 := by omega
      simp only [h1, if_true, h2, h3]
      have h4 : lastObs (p :: ps) ((q - (i + 1)) + 1) = lastObs ps (q - (i + 1)) := by
        simp [lastObs]
      rw [h4]
      cases hobs : lastObs ps (q - (i + 1)) with
      | some v => simp
      | none =>
        simp only []
        exact stockStep_lastStockCounts_ne now frame i p st q (by omega)

lemma checkStockChangesAux_stockEvents_diff (now : ℤ) (frame : FrameData) :
    ∀ (ps : List (Option FramePlayer)) (i : ℕ) (st : GameState),
      ∃ new, (checkStockChangesAux now frame i ps st).stockEvents =
          st.stockEvents ++ new ∧
        ∀ ev ∈ new, i ≤ ev.playerIndex ∧
          ev.remainingStocks = st.lastStockCounts ev.playerIndex ∧
          0 < ev.stocksLost ∧
          (checkStockChangesAux now frame i ps st).lastStockCounts ev.playerIndex =
            ev.remainingStocks - ev.stocksLost := by
  intro ps
  induction ps with
  | nil =>
    intro i st
    exact ⟨[], by simp [checkStockChangesAux], by simp⟩
  | cons p ps ih =>
    intro i st
    obtain ⟨new1, hse1, hprop1⟩ := stockStep_stockEvents_diff now frame i p st
    obtain ⟨new2, hse2, hprop2⟩ := ih (i + 1) (stockStep now frame i p st)
    refine ⟨new1 ++ new2, ?_, ?_⟩
    · rw [checkStockChangesAux, hse2, hse1, List.append_assoc]
    · intro ev hev
      rw [List.mem_append] at hev
      rcases hev with hev | hev
      · obtain ⟨h1, h2, h3, h4⟩ := hprop1 ev hev
        refine ⟨by omega, by rw [h1]; exact h2, h3, ?_⟩
        rw [checkStockChangesAux, h1,
          checkStockChangesAux_lastStockCounts_lt now frame ps (i + 1) _ i
            (by omega)]
        exact h4
      · obtain ⟨h1, h2, h3, h4⟩ := hprop2 ev hev
        refine ⟨by omega, ?_, h3, ?_⟩
        · rw [h2, stockStep_lastStockCounts_ne now frame i p st ev.playerIndex
            (by omega)]
        · rw [checkStockChangesAux]
          exact h4

lemma checkStockChangesAux_pending_diff (now : ℤ) (frame : FrameData) :
    ∀ (ps : List (Option FramePlayer)) (i : ℕ) (st : GameState),
      ∃ new, (checkStockChangesAux now frame i ps st).pending =
          st.pending ++ new ∧ ∀ e ∈ new, e.isFrameUpdate = false := by
  intro ps
  induction ps with
  | nil =>
    intro i st
    exact ⟨[], by simp [checkStockChangesAux], by simp⟩
  | cons p ps ih =>
    intro i st
    obtain ⟨new1, hpe1, hprop1⟩ := stockStep_pending_diff now frame i p st
    obtain ⟨new2, hpe2, hprop2⟩ := ih (i + 1) (stockStep now frame i p st)
    refine ⟨new1 ++ new2, ?_, ?_⟩
    · rw [checkStockChangesAux, hpe2, hpe1, List.append_assoc]
    · intro e he
      rw [List.mem_append] at he
      rcases he with he | he
      · exact hprop1 e he
      · exact hprop2 e he

lemma comboStep_comboEvents (now : ℤ) (st : GameState) (c : ComboInput) :
    (comboStep now st c).comboEvents = st.comboEvents ++ [mkComboEvent c] := by
  unfold comboStep
  cases h : (canTriggerEventType
      (if 4 ≤ c.moves.length then EventType.SIGNIFICANT_COMBO
       else EventType.MINOR_COMBO) now st.lastEventTimes).1 <;>
    simp [h]

lemma comboStep_lastStockCounts (now : ℤ) (st : GameState) (c : ComboInput) :
    (comboStep now st c).lastStockCounts = st.lastStockCounts := by
  unfold comboStep
  cases h : (canTriggerEventType
      (if 4 ≤ c.moves.length then EventType.SIGNIFICANT_COMBO
       else EventType.MINOR_COMBO) now st.lastEventTimes).1 <;>
    simp [h]

lemma comboStep_stockEvents (now : ℤ) (st : GameState) (c : ComboInput) :
    (comboStep now st c).stockEvents = st.stockEvents := by
  unfold comboStep
  cases h : (canTriggerEventType
      (if 4 ≤ c.moves.length then EventType.SIGNIFICANT_COMBO
       else EventType.MINOR_COMBO) now st.lastEventTimes).1 <;>
    simp [h]

lemma comboStep_pending_diff (now : ℤ) (st : GameState) (c : ComboInput) :
    ∃ new, (comboStep now st c).pending = st.pending ++ new ∧
      ∀ e ∈ new, e.isFrameUpdate = false := by
  unfold comboStep
  cases h : (canTriggerEventType
      (if 4 ≤ c.moves.length then EventType.SIGNIFICANT_COMBO
       else EventType.MINOR_COMBO) now st.lastEventTimes).1
  · exact ⟨[], by simp [h], by simp⟩
  · refine ⟨[CoachEvent.combo c.playerIndex c.moves.length (comboDamage c)
      (playerCharacterAt { st with comboEvents := st.comboEvents ++ [mkComboEvent c] }
        c.playerIndex) c.startFrame c.endFrame], by simp [h], ?_⟩
    intro e he
    simp at he
    subst he
    rfl

lemma comboFold_comboEvents (now : ℤ) :
    ∀ (l : List ComboInput) (st : GameState),
      (l.foldl (comboStep now) st).comboEvents =
        st.comboEvents ++ l.map mkComboEvent := by
  intro l
  induction l with
  | nil => intro st; simp
  | cons c l ih =>
    intro st
    rw [List.foldl_cons, ih, comboStep_comboEvents]
    simp

lemma comboFold_lastStockCounts (now : ℤ) :
    ∀ (l : List ComboInput) (st : GameState),
      (l.foldl (comboStep now) st).lastStockCounts = st.lastStockCounts := by
  intro l
  induction l with
  | nil => intro st; rfl
  | cons c l ih =>
    intro st
    rw [List.foldl_cons, ih, comboStep_lastStockCounts]

lemma comboFold_stockEvents (now : ℤ) :
    ∀ (l : List ComboInput) (st : GameState),
      (l.foldl (comboStep now) st).stockEvents = st.stockEvents := by
  intro l
  induction l with
  | nil => intro st; rfl
  | cons c l ih =>
    intro st
    rw [List.foldl_cons, ih, comboStep_stockEvents]

lemma comboFold_pending_diff (now : ℤ) :
    ∀ (l : List ComboInput) (st : GameState),
      ∃ new, (l.foldl (comboStep now) st).pending = st.pending ++ new ∧
        ∀ e ∈ new, e.isFrameUpdate = false := by
  intro l
  induction l with
  | nil => intro st; exact ⟨[], by simp, by simp⟩
  | cons c l ih =>
    intro st
    obtain ⟨new1, h1, hp1⟩ := comboStep_pending_diff now st c
    obtain ⟨new2, h2, hp2⟩ := ih (comboStep now st c)
    refine ⟨new1 ++ new2, ?_, ?_⟩
    · rw [List.foldl_cons, h2, h1, List.append_assoc]
    · intro e he
      rw [List.mem_append] at he
      rcases he with he | he
      · exact hp1 e he
      · exact hp2 e he

lemma processNewCombos_comboEvents (now : ℤ) (combos : List ComboInput)
    (st : GameState) :
    (processNewCombos now combos st).comboEvents =
      st.comboEvents ++ (novelCombos st.comboEvents combos).map mkComboEvent := by
  unfold processNewCombos
  cases hc : combos.isEmpty
  · simp [hc, comboFold_comboEvents]
  · have : combos = [] := by
      cases combos with
      | nil => rfl
      | cons a l => simp at hc
    subst this
    simp [novelCombos]

lemma processNewCombos_lastStockCounts (now : ℤ) (combos : List ComboInput)
    (st : GameState) :
    (processNewCombos now combos st).lastStockCounts = st.lastStockCounts := by
  unfold processNewCombos
  cases hc : combos.isEmpty <;> simp [comboFold_lastStockCounts]

lemma processNewCombos_stockEvents (now : ℤ) (combos : List ComboInput)
    (st : GameState) :
    (processNewCombos now combos st).stockEvents = st.stockEvents := by
  unfold processNewCombos
  cases hc : combos.isEmpty <;> simp [comboFold_stockEvents]

lemma processNewCombos_pending_diff (now : ℤ) (combos : List ComboInput)
    (st : GameState) :
    ∃ new, (processNewCombos now combos st).pending = st.pending ++ new ∧
      ∀ e ∈ new, e.isFrameUpdate = false := by
  unfold processNewCombos
  cases hc : combos.isEmpty
  · simpa using comboFold_pending_diff now (novelCombos st.comboEvents combos) st
  · exact ⟨[], by simp, by simp⟩

lemma processHeartbeat_lastStockCounts (now : ℤ) (frame : FrameData)
    (ps : List (Option FramePlayer)) (st : GameState) :
    (processHeartbeat now frame ps st).lastStockCounts = st.lastStockCounts := by
  unfold processHeartbeat
  by_cases h3 : frame.frame % 300 = 0
  · cases h : (canTriggerEventType .FRAME_UPDATE now st.lastEventTimes).1 <;>
      simp [h3, h]
  · simp [h3]

lemma processHeartbeat_stockEvents (now : ℤ) (frame : FrameData)
    (ps : List (Option FramePlayer)) (st : GameState) :
    (processHeartbeat now frame ps st).stockEvents = st.stockEvents := by
  unfold processHeartbeat
  by_cases h3 : frame.frame % 300 = 0
  · cases h : (canTriggerEventType .FRAME_UPDATE now st.lastEventTimes).1 <;>
      simp [h3, h]
  · simp [h3]

lemma processHeartbeat_comboEvents (now : ℤ) (frame : FrameData)
    (ps : List (Option FramePlayer)) (st : GameState) :
    (processHeartbeat now frame ps st).comboEvents = st.comboEvents := by
  unfold processHeartbeat
  by_cases h3 : frame.frame % 300 = 0
  · cases h : (canTriggerEventType .FRAME_UPDATE now st.lastEventTimes).1 <;>
      simp [h3, h]
  · simp [h3]

lemma processHeartbeat_players (now : ℤ) (frame : FrameData)
    (ps : List (Option FramePlayer)) (st : GameState) :
    (processHeartbeat now frame ps st).players = st.players := by
  unfold processHeartbeat
  by_cases h3 : frame.frame % 300 = 0
  · cases h : (canTriggerEventType .FRAME_UPDATE now st.lastEventTimes).1 <;>
      simp [h3, h]
  · simp [h3]

/-- The heartbeat block appends exactly one `frameUpdate` event when the
frame number is a multiple of 300 and the `FRAME_UPDATE` throttle admits,
and nothing otherwise. -/
lemma processHeartbeat_pending (now : ℤ) (frame : FrameData)
    (ps : List (Option FramePlayer)) (st : GameState) :
    (processHeartbeat now frame ps st).pending =
      st.pending ++
        (if frame.frame % 300 = 0 ∧
            threshold .FRAME_UPDATE ≤ now - st.lastEventTimes .FRAME_UPDATE then
          [CoachEvent.frameUpdate frame.frame (frameUpdateSnapshot st.players ps)]
        else []) := by
  unfold processHeartbeat
  by_cases h3 : frame.frame % 300 = 0
  · by_cases hadm : threshold .FRAME_UPDATE ≤ now - st.lastEventTimes .FRAME_UPDATE
    · have h : (canTriggerEventType .FRAME_UPDATE now st.lastEventTimes).1 = true := by
        rw [canTriggerEventType_fst]; simpa using hadm
      simp [h3, h, hadm]
    · have h : (canTriggerEventType .FRAME_UPDATE now st.lastEventTimes).1 = false := by
        rw [canTriggerEventType_fst]; simpa using hadm
      simp [h3, h, hadm]
  · simp [h3]

lemma processFrameData_lastStockCounts (now : ℤ) (frame : FrameData)
    (combos : List ComboInput) (st : GameState) (q : ℕ) :
    (processFrameData now frame combos st).lastStockCounts q =
      match frame.players with
      | none => st.lastStockCounts q
      | some ps =>
        match lastObs ps q with
        | some v => v
        | none => st.lastStockCounts q := by
  unfold processFrameData
  cases hp : frame.players with
  | none => rfl
  | some ps =>
    simp only []
    rw [processNewCombos_lastStockCounts]
    unfold checkStockChanges
    rw [checkStockChangesAux_lastStockCounts]
    simp only [Nat.zero_le, if_true, Nat.sub_zero]
    cases lastObs ps q with
    | some v => rfl
    | none => simp only []; rw [processHeartbeat_lastStockCounts]

lemma processFrameData_stockEvents_diff (now : ℤ) (frame : FrameData)
    (combos : List ComboInput) (st : GameState) :
    ∃ new, (processFrameData now frame combos st).stockEvents =
      st.stockEvents ++ new := by
  unfold processFrameData
  cases hp : frame.players with
  | none => exact ⟨[], by simp⟩
  | some ps =>
    simp only []
    rw [processNewCombos_stockEvents]
    unfold checkStockChanges
    obtain ⟨new, hnew, _⟩ := checkStockChangesAux_stockEvents_diff now frame ps 0
      (processHeartbeat now frame ps st)
    rw [hnew, processHeartbeat_stockEvents]
    exact ⟨new, rfl⟩

lemma processFrames_lastStockCounts :
    ∀ (ticks : List FrameTick) (st : GameState) (p : ℕ),
      (processFrames ticks st).lastStockCounts p =
        (observedStocks ticks p).getLastD (st.lastStockCounts p) := by
  intro ticks
  induction ticks with
  | nil => intro st p; rfl
  | cons tk ticks ih =>
    intro st p
    have hstep := processFrameData_lastStockCounts tk.now tk.frame tk.combos st p
    show (processFrames ticks (processFrameData tk.now tk.frame tk.combos st)).lastStockCounts p = _
    rw [ih]
    unfold observedStocks
    rw [List.filterMap_cons]
    cases hp : tk.frame.players with
    | none =>
      simp only [hp] at hstep ⊢
      rw [hstep]
    | some ps =>
      simp only [hp] at hstep ⊢
      cases hobs : lastObs ps p with
      | none =>
        simp only [hobs] at hstep ⊢
        rw [hstep]
      | some v =>
        simp only [hobs] at hstep ⊢
        rw [hstep, List.getLastD_cons]

lemma getLastD_mem_le_of_chain :
    ∀ (l : List ℤ) (d : ℤ), l ≠ [] → List.Chain' (· ≥ ·) l →
      l.getLastD d ∈ l ∧ ∀ v ∈ l, l.getLastD d ≤ v := by
  intro l
  induction l with
  | nil => intro d h _; exact absurd rfl h
  | cons a l ih =>
    intro d _ hchain
    cases l with
    | nil => simp
    | cons b l =>
      rw [List.chain'_cons] at hchain
      obtain ⟨hab, hrest⟩ := hchain
      obtain ⟨hmem, hle⟩ := ih a (by simp) hrest
      rw [List.getLastD_cons]
      refine ⟨List.mem_cons_of_mem a hmem, ?_⟩
      intro v hv
      rcases List.mem_cons.mp hv with hv | hv
      · subst hv
        exact le_trans (hle b (by simp)) hab
      · exact hle v hv

/-- C5 (amended): after processing a sequence of frames, the tracker's
stored stock count for each player equals the LAST stock value observed
for that player (the count is updated unconditionally on every frame
carrying data for the player, even when no `StockLost` event is
emitted); when the observed values are non-increasing — the normal
course of a Melee game — this coincides with the minimum value observed,
but for an arbitrary frame sequence only the last-value law holds. -/
theorem C5_tracked_stock_equals_last_observed :
    ∀ (ticks : List FrameTick) (st : GameState) (p : ℕ),
      ((processFrames ticks st).lastStockCounts p =
        (observedStocks ticks p).getLastD (st.lastStockCounts p)) ∧
      (observedStocks ticks p ≠ [] →
        List.Chain' (· ≥ ·) (observedStocks ticks p) →
        ((processFrames ticks st).lastStockCounts p ∈ observedStocks ticks p ∧
          ∀ v ∈ observedStocks ticks p,
            (processFrames ticks st).lastStockCounts p ≤ v)) := by
  intro ticks st p
  refine ⟨processFrames_lastStockCounts ticks st p, ?_⟩
  intro hne hchain
  rw [processFrames_lastStockCounts ticks st p]
  exact getLastD_mem_le_of_chain (observedStocks ticks p)
    (st.lastStockCounts p) hne hchain

/-- C5 counterexample: on the frame sequence observing stocks 3 then 4
for player 0 (strictly increasing frame numbers 1, 2, no match-start
reset), the tracked count ends at 4, the last observed value — not at
the minimum 3 the claim demands: it is not a lower bound of the
observations. -/
theorem C5_counterexample :
    observedStocks exTicksC5 0 = [3, 4] ∧
    (processFrames exTicksC5 (initGameState exRoster)).lastStockCounts 0 = 4 ∧
    ¬ (∀ v ∈ observedStocks exTicksC5 0,
        (processFrames exTicksC5 (initGameState exRoster)).lastStockCounts 0 ≤ v) := by
  refine ⟨by decide, by decide, ?_⟩
  intro h
  have h4 : (processFrames exTicksC5 (initGameState exRoster)).lastStockCounts 0 = 4 := by
    decide
  have h3 := h 3 (by decide)
  rw [h4] at h3
  omega

/-- Witness for C5 at a concrete non-increasing run: observations
`[3, 2]`, and the tracked count is a member of and lower bound for
the observations. -/
theorem C5_tracked_stock_equals_last_observed_witness :
    observedStocks wTicksC5 0 ≠ [] ∧
    ((processFrames wTicksC5 (initGameState exRoster)).lastStockCounts 0 ∈
        observedStocks wTicksC5 0 ∧
      ∀ v ∈ observedStocks wTicksC5 0,
        (processFrames wTicksC5 (initGameState exRoster)).lastStockCounts 0 ≤ v) := by
  have hobs : observedStocks wTicksC5 0 = [3, 2] := by decide
  refine ⟨by simp [hobs], ?_⟩
  refine (C5_tracked_stock_equals_last_observed wTicksC5 (initGameState exRoster) 0).2
    (by simp [hobs]) ?_
  rw [hobs]
  norm_num [List.chain'_cons]

lemma stocksLostByPlayer_foldl (p : ℕ) :
    ∀ (evs : List StockEvent) (a : ℤ),
      evs.foldl (fun acc ev =>
          if ev.playerIndex = p then acc + ev.stocksLost else acc) a =
        a + (((evs.filter (fun ev => ev.playerIndex == p)).map
          (fun ev => ev.stocksLost)).sum) := by
  intro evs
  induction evs with
  | nil => intro a; simp
  | cons ev evs ih =>
    intro a
    rw [List.foldl_cons]
    by_cases h : ev.playerIndex = p
    · rw [if_pos h, ih]
      simp [List.filter_cons, h]
      ring
    · rw [if_neg h, ih]
      simp [List.filter_cons, h]

lemma processFrames_stockEvents_diff :
    ∀ (ticks : List FrameTick) (st : GameState),
      ∃ new, (processFrames ticks st).stockEvents = st.stockEvents ++ new := by
  intro ticks
  induction ticks with
  | nil => intro st; exact ⟨[], by simp [processFrames]⟩
  | cons tk ticks ih =>
    intro st
    obtain ⟨new1, h1⟩ := processFrameData_stockEvents_diff tk.now tk.frame tk.combos st
    obtain ⟨new2, h2⟩ := ih (processFrameData tk.now tk.frame tk.combos st)
    refine ⟨new1 ++ new2, ?_⟩
    show (processFrames ticks (processFrameData tk.now tk.frame tk.combos st)).stockEvents = _
    rw [h2, h1, List.append_assoc]

/-- C2 (amended): the end-of-match summary's per-player stock-loss count
is the fold of the complete RECORDED `StockLost` event history — the
events that passed the `STOCK_LOSS` throttle and were pushed onto
`stockEvents` — accumulated since match start (processing only ever
appends to the history). Stock-loss detections suppressed by the
throttle are not recorded and therefore not counted. -/
theorem C2_summary_folds_recorded_stock_events :
    ∀ (ticks : List FrameTick) (st : GameState) (p : ℕ),
      (∃ new, (processFrames ticks st).stockEvents = st.stockEvents ++ new) ∧
      stocksLostByPlayer (processFrames ticks st).stockEvents p =
        (((processFrames ticks st).stockEvents.filter
            (fun ev => ev.playerIndex == p)).map
          (fun ev => ev.stocksLost)).sum := by
  intro ticks st p
  refine ⟨processFrames_stockEvents_diff ticks st, ?_⟩
  unfold stocksLostByPlayer
  rw [stocksLostByPlayer_foldl]
  simp

/-- C2 counterexample: the run contains N = 2 distinct stock-loss
detections for player 0 (observations 3 then 2, starting from 4)
totaling K = 2 lost stocks, yet the summary reports `stocksLost[0] = 1`:
the second detection hit the `STOCK_LOSS` throttle inside
`_handleStockLost` before being recorded, so K = 2 is not reported. -/
theorem C2_counterexample :
    observedStocks exTicksC2 0 = [3, 2] ∧
    stocksLostByPlayer
      (processFrames exTicksC2 (initGameState exRoster)).stockEvents 0 = 1 ∧
    (1 : ℤ) ≠ 2 := by
  refine ⟨by decide, by decide, by decide⟩

/-- C9: every stock event recorded by `_checkStockChanges` carries in
`remainingStocks` the tracked stock count from BEFORE the loss (the
event is built while `lastStockCounts` still holds the pre-loss value;
the unconditional update happens afterwards), and this differs from the
post-loss tracked count. -/
theorem C9_remainingStocks_is_preloss :
    ∀ (now : ℤ) (frame : FrameData) (ps : List (Option FramePlayer))
      (st : GameState),
      ∃ new, (checkStockChanges now frame ps st).stockEvents =
          st.stockEvents ++ new ∧
        ∀ ev ∈ new,
          ev.remainingStocks = st.lastStockCounts ev.playerIndex ∧
          0 < ev.stocksLost ∧
          (checkStockChanges now frame ps st).lastStockCounts ev.playerIndex =
            ev.remainingStocks - ev.stocksLost ∧
          ev.remainingStocks ≠
            (checkStockChanges now frame ps st).lastStockCounts ev.playerIndex := by
  intro now frame ps st
  unfold checkStockChanges
  obtain ⟨new, h1, h2⟩ := checkStockChangesAux_stockEvents_diff now frame ps 0 st
  refine ⟨new, h1, ?_⟩
  intro ev hev
  obtain ⟨_, hrem, hpos, hpost⟩ := h2 ev hev
  exact ⟨hrem, hpos, hpost, by omega⟩

/-- Witness for C9 at a concrete admitted loss: the recorded event's
`remainingStocks` is 4 (the pre-loss tracked value), while the post-loss
tracked count is 3. -/
theorem C9_remainingStocks_is_preloss_witness :
    (checkStockChanges 100000 wFrameC9 wPsC9 (initGameState exRoster)).stockEvents =
      [⟨100000, 300, 0, 1, 4⟩] ∧
    ((⟨100000, 300, 0, 1, 4⟩ : StockEvent).remainingStocks =
      (initGameState exRoster).lastStockCounts 0) ∧
    (checkStockChanges 100000 wFrameC9 wPsC9 (initGameState exRoster)).lastStockCounts 0 = 3 ∧
    (4 : ℤ) ≠ 3 := by
  refine ⟨by decide, ?_, by decide, by decide⟩
  obtain ⟨new, h1, h2⟩ :=
    C9_remainingStocks_is_preloss 100000 wFrameC9 wPsC9 (initGameState exRoster)
  have hse : (checkStockChanges 100000 wFrameC9 wPsC9 (initGameState exRoster)).stockEvents =
      [⟨100000, 300, 0, 1, 4⟩] := by decide
  have hnil : (initGameState exRoster).stockEvents = [] := rfl
  rw [hnil, List.nil_append] at h1
  have hmem : (⟨100000, 300, 0, 1, 4⟩ : StockEvent) ∈ new := by
    rw [← h1, hse]; simp
  exact (h2 _ hmem).1

/-- C4 (amended): processing a frame that carries player data appends
exactly one `FrameHeartbeat` pending event — carrying the per-player
percent/stock snapshot — if and only if the frame number is a multiple
of 300 AND the `FRAME_UPDATE` throttle admits (at least 10 000 ms since
the last admitted `FRAME_UPDATE`); everything else the frame appends is
not a heartbeat. A 300-multiple frame inside the 10 s throttle window
emits no heartbeat. -/
theorem C4_heartbeat_every_300th_frame_iff_throttle_admits :
    ∀ (now : ℤ) (frame : FrameData) (ps : List (Option FramePlayer))
      (combos : List ComboInput) (st : GameState),
      frame.players = some ps →
      ∃ tail,
        (processFrameData now frame combos st).pending =
          st.pending ++
            (if frame.frame % 300 = 0 ∧
                threshold .FRAME_UPDATE ≤ now - st.lastEventTimes .FRAME_UPDATE then
              [CoachEvent.frameUpdate frame.frame
                (frameUpdateSnapshot st.players ps)]
            else []) ++ tail ∧
        ∀ e ∈ tail, e.isFrameUpdate = false := by
  intro now frame ps combos st hp
  unfold processFrameData
  rw [hp]
  simp only []
  obtain ⟨new1, h1, hprop1⟩ := checkStockChangesAux_pending_diff now frame ps 0
    (processHeartbeat now frame ps st)
  obtain ⟨new2, h2, hprop2⟩ := processNewCombos_pending_diff now combos
    (checkStockChanges now frame ps (processHeartbeat now frame ps st))
  refine ⟨new1 ++ new2, ?_, ?_⟩
  · rw [h2]
    unfold checkStockChanges
    rw [h1, processHeartbeat_pending]
    simp [List.append_assoc]
  · intro e he
    rw [List.mem_append] at he
    rcases he with he | he
    · exact hprop1 e he
    · exact hprop2 e he

/-- C4 counterexample: frame 600 is a multiple of 300 and carries player
data, yet processing it 5 000 ms after frame 300's admitted heartbeat
emits NO `FrameHeartbeat` (the pending queue is unchanged): the
`FRAME_UPDATE` class is throttled at 10 000 ms, so the claim's
"regardless ... of any previously emitted events" fails. -/
theorem C4_counterexample :
    (600 : ℤ) % 300 = 0 ∧
    exF600.players ≠ none ∧
    ((processFrameData 100000 exF300 [] (initGameState exRoster)).pending.countP
      (fun e => e.isFrameUpdate) = 1) ∧
    ((processFrameData 105000 exF600 []
        (processFrameData 100000 exF300 [] (initGameState exRoster))).pending.countP
      (fun e => e.isFrameUpdate) = 1) := by
  refine ⟨by decide, by decide, by decide, by decide⟩

/-- Witness for C4 at a concrete admitted heartbeat: frame 300 processed
10 000 ms or more after match start appends the heartbeat event first,
followed only by non-heartbeat events. -/
theorem C4_heartbeat_witness :
    ∃ tail,
      (processFrameData 100000 exF300 [] (initGameState exRoster)).pending =
        (initGameState exRoster).pending ++
          [CoachEvent.frameUpdate exF300.frame
            (frameUpdateSnapshot (initGameState exRoster).players wPsC4)] ++ tail ∧
      ∀ e ∈ tail, e.isFrameUpdate = false := by
  have hcond : exF300.frame % 300 = 0 ∧
      threshold .FRAME_UPDATE ≤
        (100000 : ℤ) - (initGameState exRoster).lastEventTimes .FRAME_UPDATE := by
    decide
  obtain ⟨tail, h1, h2⟩ :=
    C4_heartbeat_every_300th_frame_iff_throttle_admits 100000 exF300 wPsC4 []
      (initGameState exRoster) rfl
  rw [if_pos hcond] at h1
  exact ⟨tail, h1, h2⟩

lemma combosByPlayer_foldl (p : ℕ) :
    ∀ (evs : List ComboEvent) (a : List ComboEvent),
      evs.foldl (fun acc e => if e.playerIndex = p then acc ++ [e] else acc) a =
        a ++ evs.filter (fun e => e.playerIndex == p) := by
  intro evs
  induction evs with
  | nil => intro a; simp
  | cons e evs ih =>
    intro a
    rw [List.foldl_cons]
    by_cases h : e.playerIndex = p
    · rw [if_pos h, ih]
      simp [List.filter_cons, h]
    · rw [if_neg h, ih]
      simp [List.filter_cons, h]

lemma combosByPlayer_eq_filter (evs : List ComboEvent) (p : ℕ) :
    combosByPlayer evs p = evs.filter (fun e => e.playerIndex == p) := by
  unfold combosByPlayer
  rw [combosByPlayer_foldl]
  simp

lemma totalDamageByPlayer_foldl (p : ℕ) :
    ∀ (evs : List ComboEvent) (a : ℚ),
      evs.foldl (fun acc e => if e.playerIndex = p then acc + e.damage else acc) a =
        a + (((evs.filter (fun e => e.playerIndex == p)).map
          (fun e => e.damage)).sum) := by
  intro evs
  induction evs with
  | nil => intro a; simp
  | cons e evs ih =>
    intro a
    rw [List.foldl_cons]
    by_cases h : e.playerIndex = p
    · rw [if_pos h, ih]
      simp [List.filter_cons, h]
      ring
    · rw [if_neg h, ih]
      simp [List.filter_cons, h]

lemma filter_map_mkComboEvent (p : ℕ) :
    ∀ (l : List ComboInput),
      (l.map mkComboEvent).filter (fun e => e.playerIndex == p) =
        (l.filter (fun c => c.playerIndex == p)).map mkComboEvent := by
  intro l
  induction l with
  | nil => simp
  | cons c l ih =>
    rw [List.map_cons, List.filter_cons, List.filter_cons]
    by_cases h : c.playerIndex = p
    · have h1 : ((mkComboEvent c).playerIndex == p) = true := by
        simp [mkComboEvent, h]
      have h2 : (c.playerIndex == p) = true := by simp [h]
      rw [h1, h2]
      simp [ih]
    · have h1 : ((mkComboEvent c).playerIndex == p) = false := by
        simp [mkComboEvent, h]
      have h2 : (c.playerIndex == p) = false := by simp [h]
      rw [h1, h2]
      simp [ih]

/-- C10: every combo passing the novelty check (unseen
`(playerIndex, startFrame)`) and the 2-hit noise filter is appended to
the match's `comboEvents` history — independently of the combo-class
throttle state, which only gates the pending narration entry — and the
end-of-match per-player combo counts and damage totals therefore grow by
exactly those recorded combos. -/
theorem C10_novel_combos_recorded_regardless_of_throttle :
    ∀ (now : ℤ) (combos : List ComboInput) (st : GameState)
      (times' : EventType → ℤ) (p : ℕ),
      ((processNewCombos now combos st).comboEvents =
        st.comboEvents ++ (novelCombos st.comboEvents combos).map mkComboEvent) ∧
      ((processNewCombos now combos
          { st with lastEventTimes := times' }).comboEvents =
        st.comboEvents ++ (novelCombos st.comboEvents combos).map mkComboEvent) ∧
      ((combosByPlayer (processNewCombos now combos st).comboEvents p).length =
        (combosByPlayer st.comboEvents p).length +
          ((novelCombos st.comboEvents combos).filter
            (fun c => c.playerIndex == p)).length) ∧
      (totalDamageByPlayer (processNewCombos now combos st).comboEvents p =
        totalDamageByPlayer st.comboEvents p +
          (((novelCombos st.comboEvents combos).filter
            (fun c => c.playerIndex == p)).map comboDamage).sum) := by
  intro now combos st times' p
  have h1 := processNewCombos_comboEvents now combos st
  refine ⟨h1, ?_, ?_, ?_⟩
  · exact processNewCombos_comboEvents now combos
      { st with lastEventTimes := times' }
  · rw [h1, combosByPlayer_eq_filter, combosByPlayer_eq_filter,
      List.filter_append, List.length_append, filter_map_mkComboEvent,
      List.length_map]
  · unfold totalDamageByPlayer
    rw [h1, totalDamageByPlayer_foldl, totalDamageByPlayer_foldl,
      List.filter_append, List.map_append, List.sum_append,
      filter_map_mkComboEvent, List.map_map]
    have : ((fun e : ComboEvent => e.damage) ∘ mkComboEvent) = comboDamage := by
      funext c
      rfl
    rw [this]
    ring

lemma drainChunks_flatten :
    ∀ (n : ℕ) (q : List CoachEvent),
      (drainChunks n q).flatten = q.take (PENDING_EVENTS_LIMIT * n) := by
  intro n
  induction n with
  | zero => intro q; simp [drainChunks]
  | succ n ih =>
    intro q
    cases q with
    | nil => simp [drainChunks]
    | cons e q =>
      show ((e :: q).take PENDING_EVENTS_LIMIT ::
          drainChunks n ((e :: q).drop PENDING_EVENTS_LIMIT)).flatten =
        (e :: q).take (PENDING_EVENTS_LIMIT * (n + 1))
      rw [List.flatten_cons, ih]
      have h : PENDING_EVENTS_LIMIT * (n + 1) =
          PENDING_EVENTS_LIMIT + PENDING_EVENTS_LIMIT * n := by ring
      rw [h, List.take_add]

lemma drainChunks_bounds :
    ∀ (n : ℕ) (q : List CoachEvent) (b : List CoachEvent),
      b ∈ drainChunks n q → 1 ≤ b.length ∧ b.length ≤ PENDING_EVENTS_LIMIT := by
  intro n
  induction n with
  | zero => intro q b hb; simp [drainChunks] at hb
  | succ n ih =>
    intro q b hb
    cases q with
    | nil => simp [drainChunks] at hb
    | cons e q =>
      have hb' : b ∈ (e :: q).take PENDING_EVENTS_LIMIT ::
          drainChunks n ((e :: q).drop PENDING_EVENTS_LIMIT) := hb
      have hP : PENDING_EVENTS_LIMIT = 3 := rfl
      rcases List.mem_cons.mp hb' with hb2 | hb2
      · subst hb2
        have hlen := List.length_take PENDING_EVENTS_LIMIT (e :: q)
        refine ⟨?_, ?_⟩
        · rw [hlen, hP, List.length_cons]
          omega
        · rw [hlen, hP]
          omega
      · exact ih _ b hb2

/-- C3: batcher invariant. (i) Every batch released by a drain tick has
between 1 and `batchSize = 3` events. (ii) A non-empty queue of a
tracked match releases exactly its 3 oldest events in FIFO order and
keeps the remainder, and the released prefix plus the remainder
reconstitute the queue — so no event is duplicated or reordered.
(iii) Over repeated ticks the released batches concatenate to a prefix
of the original queue (each event appears in at most one batch).
(iv) Enqueueing always leaves the drain timer running (it is started
lazily on the first enqueue), and (v) a tick that leaves every queue
empty tears the timer down. -/
theorem C3_batcher_invariant :
    (∀ (st : BatcherState) (f : ℕ) (b : List CoachEvent),
        (f, b) ∈ (processPendingEvents st).2 →
        1 ≤ b.length ∧ b.length ≤ PENDING_EVENTS_LIMIT) ∧
    (∀ (st : BatcherState) (f : ℕ) (q : List CoachEvent),
        (f, q) ∈ st.pendingEvents → st.hasState f = true → q ≠ [] →
        ((f, q.take PENDING_EVENTS_LIMIT) ∈ (processPendingEvents st).2 ∧
         (f, q.drop PENDING_EVENTS_LIMIT) ∈
           (processPendingEvents st).1.pendingEvents ∧
         q.take PENDING_EVENTS_LIMIT ++ q.drop PENDING_EVENTS_LIMIT = q)) ∧
    (∀ (n : ℕ) (q : List CoachEvent),
        (drainChunks n q).flatten = q.take (PENDING_EVENTS_LIMIT * n) ∧
        (drainChunks n q).flatten ++ q.drop (PENDING_EVENTS_LIMIT * n) = q ∧
        ∀ b ∈ drainChunks n q, 1 ≤ b.length ∧ b.length ≤ PENDING_EVENTS_LIMIT) ∧
    (∀ (f : ℕ) (ev : CoachEvent) (st : BatcherState),
        (addPendingEvent f ev st).intervalRunning = true) ∧
    (∀ st : BatcherState,
        ((processPendingEvents st).1.pendingEvents.all
          (fun e => e.2.isEmpty)) = true →
        (processPendingEvents st).1.intervalRunning = false) := by
  refine ⟨?_, ?_, ?_, ?_, ?_⟩
  · intro st f b hb
    unfold processPendingEvents at hb
    simp only [List.filterMap_map, List.mem_filterMap] at hb
    obtain ⟨e, _, hdrain⟩ := hb
    rw [Function.comp_apply] at hdrain
    unfold drainEntry at hdrain
    split at hdrain
    · simp at hdrain
    · split at hdrain
      · rename_i hne _
        simp only [Option.some.injEq, Prod.mk.injEq] at hdrain
        obtain ⟨-, hb2⟩ := hdrain
        have hne' : e.2 ≠ [] := by
          intro hcon
          rw [hcon] at hne
          simp at hne
        have hpos : 0 < e.2.length := List.length_pos.mpr hne'
        have hlen := List.length_take PENDING_EVENTS_LIMIT e.2
        have hP : PENDING_EVENTS_LIMIT = 3 := rfl
        rw [← hb2]
        refine ⟨?_, ?_⟩
        · rw [hlen, hP]
          omega
        · rw [hlen, hP]
          omega
      · simp at hdrain
  · intro st f q hq hs hne
    have hdrain : drainEntry st.hasState (f, q) =
        ((f, q.drop PENDING_EVENTS_LIMIT),
         some (f, q.take PENDING_EVENTS_LIMIT)) := by
      unfold drainEntry
      have h1 : (f, q).2.isEmpty = false := by
        simp [hne]
      rw [h1]
      simp [hs]
    refine ⟨?_, ?_, List.take_append_drop _ q⟩
    · unfold processPendingEvents
      simp only [List.filterMap_map, List.mem_filterMap]
      exact ⟨(f, q), hq, by rw [Function.comp_apply, hdrain]⟩
    · unfold processPendingEvents
      simp only [List.map_map, List.mem_map]
      exact ⟨(f, q), hq, by rw [Function.comp_apply, hdrain]⟩
  · intro n q
    refine ⟨drainChunks_flatten n q, ?_, drainChunks_bounds n q⟩
    rw [drainChunks_flatten n q]
    exact List.take_append_drop _ q
  · intro f ev st
    rfl
  · intro st hall
    have hpe : (processPendingEvents st).1.pendingEvents =
        (st.pendingEvents.map (drainEntry st.hasState)).map (fun r => r.1) := rfl
    have hint : (processPendingEvents st).1.intervalRunning =
        if ((st.pendingEvents.map (drainEntry st.hasState)).map
            (fun r => r.1)).any (fun e => !e.2.isEmpty) = true
        then st.intervalRunning else false := rfl
    rw [hpe] at hall
    rw [hint]
    have hany : (((st.pendingEvents.map (drainEntry st.hasState)).map
        (fun r => r.1)).any (fun e => !e.2.isEmpty)) = false := by
      rw [List.any_eq_false]
      intro e he
      rw [List.all_eq_true] at hall
      have h := hall e he
      simp [h]
    rw [hany]
    rfl

/-- Witness for C3 at concrete inputs: a four-event queue releases its
three oldest events and keeps the fourth; enqueueing starts the timer;
draining a one-event queue empties it and tears the timer down. -/
theorem C3_batcher_invariant_witness :
    ((0, [wEv 1, wEv 2, wEv 3]) ∈ (processPendingEvents wBatchSt).2) ∧
    ((0, [wEv 4]) ∈ (processPendingEvents wBatchSt).1.pendingEvents) ∧
    ((addPendingEvent 0 (wEv 1) wBatchSt).intervalRunning = true) ∧
    ((processPendingEvents wBatchSt1).1.intervalRunning = false) := by
  obtain ⟨h1, h2, h3⟩ := C3_batcher_invariant.2.1 wBatchSt 0
    [wEv 1, wEv 2, wEv 3, wEv 4] (by simp [wBatchSt]) rfl (by simp)
  refine ⟨h1, h2, C3_batcher_invariant.2.2.2.1 0 (wEv 1) wBatchSt, ?_⟩
  exact C3_batcher_invariant.2.2.2.2 wBatchSt1 (by decide)

lemma ne_empty_of_length_pos {s : String} (h : 0 < s.length) : s ≠ "" := by
  intro hcon
  rw [hcon] at h
  exact absurd h (by decide)

lemma pick3_ne_empty {a b c : String} (seed : ℕ) (ha : a ≠ "")
    (hb : b ≠ "") (hc : c ≠ "") : pick3 a b c seed ≠ "" := by
  unfold pick3
  split
  · exact ha
  · split
    · exact hb
    · exact hc

lemma generateComboTemplate_ne_empty (event : JSEvent) (seed : ℕ) :
    generateComboTemplate event seed ≠ "" := by
  simp only [generateComboTemplate]
  apply pick3_ne_empty
  · apply ne_empty_of_length_pos
    simp only [String.length_append]
    have h := (by decide : 0 < ("-hit combo for " : String).length)
    omega
  · apply ne_empty_of_length_pos
    simp only [String.length_append]
    have h := (by decide : 0 < (" hits from " : String).length)
    omega
  · apply ne_empty_of_length_pos
    simp only [String.length_append]
    have h := (by decide : 0 < (" extends the punish with a " : String).length)
    omega

lemma generateStockLostTemplate_ne_empty (event : JSEvent) (seed : ℕ) :
    generateStockLostTemplate event seed ≠ "" := by
  simp only [generateStockLostTemplate]
  apply pick3_ne_empty
  · apply ne_empty_of_length_pos
    simp only [String.length_append]
    have h := (by decide : 0 < (" loses a stock! " : String).length)
    omega
  · apply ne_empty_of_length_pos
    simp only [String.length_append]
    have h := (by decide : 0 < (" gets sent to the blast zone! " : String).length)
    omega
  · apply ne_empty_of_length_pos
    simp only [String.length_append]
    have h := (by decide : 0 < ("Down goes " : String).length)
    omega

lemma generateActionStateTemplate_ne_empty (event : JSEvent) (seed : ℕ) :
    generateActionStateTemplate event seed ≠ "" := by
  simp only [generateActionStateTemplate]
  split
  · apply pick3_ne_empty
    · apply ne_empty_of_length_pos
      simp only [String.length_append]
      have h := (by decide : 0 < ("Perfect wavedash from " : String).length)
      omega
    · apply ne_empty_of_length_pos
      simp only [String.length_append]
      have h := (by decide : 0 < ("Clean wavedash to reposition by " : String).length)
      omega
    · apply ne_empty_of_length_pos
      simp only [String.length_append]
      have h := (by decide : 0 < (" executes a frame-perfect wavedash." : String).length)
      omega
  · split
    · apply pick3_ne_empty
      · apply ne_empty_of_length_pos
        simp only [String.length_append]
        have h := (by decide : 0 < (" L-cancels that " : String).length)
        omega
      · apply ne_empty_of_length_pos
        simp only [String.length_append]
        have h := (by decide : 0 < ("Nice L-cancel on the " : String).length)
        omega
      · apply ne_empty_of_length_pos
        simp only [String.length_append]
        have h := (by decide : 0 < ("Quick L-cancel to maintain pressure by " : String).length)
        omega
    · split
      · apply pick3_ne_empty
        · apply ne_empty_of_length_pos
          simp only [String.length_append]
          have h := (by decide : 0 < (" techs " : String).length)
          omega
        · apply ne_empty_of_length_pos
          simp only [String.length_append]
          have h := (by decide : 0 < ("Good " : String).length)
          omega
        · apply ne_empty_of_length_pos
          simp only [String.length_append]
          have h := (by decide : 0 < (" saves position with a " : String).length)
          omega
      · split
        · apply pick3_ne_empty
          · apply ne_empty_of_length_pos
            simp only [String.length_append]
            have h := (by decide : 0 < (" misses the tech!" : String).length)
            omega
          · apply ne_empty_of_length_pos
            simp only [String.length_append]
            have h := (by decide : 0 < ("No tech from " : String).length)
            omega
          · apply ne_empty_of_length_pos
            simp only [String.length_append]
            have h := (by decide : 0 < (" fails to tech that hit." : String).length)
            omega
        · split
          · apply pick3_ne_empty
            · apply ne_empty_of_length_pos
              simp only [String.length_append]
              have h := (by decide : 0 < (" shields the attack." : String).length)
              omega
            · apply ne_empty_of_length_pos
              simp only [String.length_append]
              have h := (by decide : 0 < ("Quick defensive shield from " : String).length)
              omega
            · apply ne_empty_of_length_pos
              simp only [String.length_append]
              have h := (by decide : 0 < (" puts up the shield." : String).length)
              omega
          · split
            · apply pick3_ne_empty
              · apply ne_empty_of_length_pos
                simp only [String.length_append]
                have h := (by decide : 0 < (" gets the grab!" : String).length)
                omega
              · apply ne_empty_of_length_pos
                simp only [String.length_append]
                have h := (by decide : 0 < ("Grab opportunity for " : String).length)
                omega
              · apply ne_empty_of_length_pos
                simp only [String.length_append]
                have h := (by decide : 0 < (" secures a grab." : String).length)
                omega
            · split
              · apply pick3_ne_empty
                · apply ne_empty_of_length_pos
                  simp only [String.length_append]
                  have h := (by decide : 0 < (" recovers with up-B." : String).length)
                  omega
                · apply ne_empty_of_length_pos
                  simp only [String.length_append]
                  have h := (by decide : 0 < ("Recovery attempt from " : String).length)
                  omega
                · apply ne_empty_of_length_pos
                  simp only [String.length_append]
                  have h := (by decide : 0 < (" uses up-B to get back." : String).length)
                  omega
              · apply ne_empty_of_length_pos
                simp only [String.length_append]
                have h := (by decide : 0 < ("Technical execution from " : String).length)
                omega

lemma generateGameStartTemplate_ne_empty (stageNames : ℤ → Option String)
    (event : JSEvent) (seed : ℕ) :
    generateGameStartTemplate stageNames event seed ≠ "" := by
  simp only [generateGameStartTemplate]
  split
  · apply ne_empty_of_length_pos
    simp only [String.length_append]
    have h := (by decide : 0 < ("Match starting on " : String).length)
    omega
  · apply pick3_ne_empty
    · apply ne_empty_of_length_pos
      simp only [String.length_append]
      have h := (by decide : 0 < ("Match starting: " : String).length)
      omega
    · apply ne_empty_of_length_pos
      simp only [String.length_append]
      have h := (by decide : 0 < ("Here we go! " : String).length)
      omega
    · apply ne_empty_of_length_pos
      simp only [String.length_append]
      have h := (by decide : 0 < ("Battle begins between " : String).length)
      omega

lemma generateGameEndTemplate_ne_empty (event : JSEvent)
    (gameState : Option (List PlayerInfo)) (seed : ℕ) :
    generateGameEndTemplate event gameState seed ≠ "" := by
  simp only [generateGameEndTemplate]
  split
  · apply ne_empty_of_length_pos
    simp only [String.length_append]
    have h := (by decide : 0 < ("Game ended early - Player " : String).length)
    omega
  · apply pick3_ne_empty
    · apply ne_empty_of_length_pos
      simp only [String.length_append]
      have h := (by decide : 0 < ("Game! " : String).length)
      omega
    · apply ne_empty_of_length_pos
      simp only [String.length_append]
      have h := (by decide : 0 < (" clutches out the win against " : String).length)
      omega
    · apply ne_empty_of_length_pos
      simp only [String.length_append]
      have h := (by decide : 0 < ("Match complete! " : String).length)
      omega

lemma generateFrameUpdateTemplate_ne_empty (event : JSEvent) (seed : ℕ) :
    generateFrameUpdateTemplate event seed ≠ "" := by
  simp only [generateFrameUpdateTemplate]
  apply pick3_ne_empty
  · apply ne_empty_of_length_pos
    simp only [String.length_append]
    have h := (by decide : 0 < (" on the clock" : String).length)
    omega
  · apply ne_empty_of_length_pos
    simp only [String.length_append]
    have h := (by decide : 0 < ("The match continues at " : String).length)
    omega
  · apply ne_empty_of_length_pos
    simp only [String.length_append]
    have h := (by decide : 0 < (" minute" : String).length)
    omega

lemma generateTemplateCommentary_ne_empty (stageNames : ℤ → Option String)
    (event : JSEvent) (gameState : Option (List PlayerInfo)) (seed : ℕ) :
    generateTemplateCommentary stageNames event gameState seed ≠ "" := by
  simp only [generateTemplateCommentary]
  split
  · exact generateComboTemplate_ne_empty event seed
  · split
    · exact generateStockLostTemplate_ne_empty event seed
    · split
      · exact generateActionStateTemplate_ne_empty event seed
      · split
        · exact generateGameStartTemplate_ne_empty stageNames event seed
        · split
          · exact generateGameEndTemplate_ne_empty event gameState seed
          · split
            · exact generateFrameUpdateTemplate_ne_empty event seed
            · decide

lemma cacheGet_set_same (cache : List (String × String × ℤ))
    (key c : String) (t : ℤ) :
    cacheGet (cacheSet cache key c t) key = some (c, t) := by
  simp [cacheGet, cacheSet, List.find?]

/-- A cache miss with an ok provider returning non-empty text caches the
result, returns it, and reports the provider as invoked. -/
lemma provideLiveCommentary_ok_miss (e : JSEvent) (es : List JSEvent)
    (style : String) (gs : Option (List PlayerInfo))
    (sn : ℤ → Option String) (now : ℤ) (seed : ℕ)
    (cache : List (String × String × ℤ)) (c : String)
    (hmiss : cacheGet cache (generateCacheKey e style) = none)
    (hc : c ≠ "") :
    provideLiveCommentary (some (Except.ok c)) (e :: es) style gs sn now
        seed cache =
      ⟨c, cacheSet cache (generateCacheKey e style) c now, true⟩ := by
  simp only [provideLiveCommentary]
  rw [hmiss]
  simp [hc]

/-- A fresh cache hit short-circuits: the cached text is returned
unchanged and the provider is never consulted. -/
lemma provideLiveCommentary_fresh_hit (provider : Option (Except Unit String))
    (e : JSEvent) (es : List JSEvent) (style : String)
    (gs : Option (List PlayerInfo)) (sn : ℤ → Option String)
    (now : ℤ) (seed : ℕ) (cache : List (String × String × ℤ))
    (c : String) (ts : ℤ)
    (hhit : cacheGet cache (generateCacheKey e style) = some (c, ts))
    (hfresh : now - ts < CACHE_EXPIRY_COMMENTARY) :
    provideLiveCommentary provider (e :: es) style gs sn now seed cache =
      ⟨c, cache, false⟩ := by
  simp only [provideLiveCommentary]
  rw [hhit]
  simp [hfresh]

/-- C6: two narration requests whose first events have identical
semantic content and the same style, the second arriving within the
30 s TTL of the entry cached by the first, behave as follows: the first
(a cache miss whose provider succeeds with non-empty text `c`) invokes
the provider once, caches `c`, and returns it; the second returns
exactly the cached `c` without invoking its provider — whatever provider
it is configured with — and leaves the cache unchanged. Hence the
provider is invoked at most once for that (content, style) key inside
the TTL window. -/
theorem C6_narration_cache_within_ttl :
    ∀ (provider2 : Option (Except Unit String)) (e : JSEvent)
      (es es' : List JSEvent) (style : String)
      (gs gs' : Option (List PlayerInfo)) (sn sn' : ℤ → Option String)
      (t1 t2 : ℤ) (seed1 seed2 : ℕ)
      (cache0 : List (String × String × ℤ)) (c : String),
      c ≠ "" →
      cacheGet cache0 (generateCacheKey e style) = none →
      t2 - t1 < CACHE_EXPIRY_COMMENTARY →
      (provideLiveCommentary (some (Except.ok c)) (e :: es) style gs sn t1
          seed1 cache0 =
        ⟨c, cacheSet cache0 (generateCacheKey e style) c t1, true⟩) ∧
      (provideLiveCommentary provider2 (e :: es') style gs' sn' t2 seed2
          (cacheSet cache0 (generateCacheKey e style) c t1) =
        ⟨c, cacheSet cache0 (generateCacheKey e style) c t1, false⟩) := by
  intro provider2 e es es' style gs gs' sn sn' t1 t2 seed1 seed2 cache0 c
    hc hmiss hfresh
  refine ⟨provideLiveCommentary_ok_miss e es style gs sn t1 seed1 cache0 c
    hmiss hc, ?_⟩
  exact provideLiveCommentary_fresh_hit provider2 e es' style gs' sn' t2
    seed2 _ c t1 (cacheGet_set_same cache0 (generateCacheKey e style) c t1)
    hfresh

/-- Witness for C6 at concrete inputs: starting from an empty cache, a
first request at t = 1000 whose provider returns "What a combo!" caches
and returns it with the provider invoked; an identical request at
t = 2000 (within the 30 s TTL) returns the same text with the provider
(here a failing one) not invoked. -/
theorem C6_narration_cache_within_ttl_witness :
    (provideLiveCommentary (some (Except.ok "What a combo!")) [wEventC6]
        "technical" none (fun _ => none) 1000 0 [] =
      ⟨"What a combo!",
        cacheSet [] (generateCacheKey wEventC6 "technical") "What a combo!" 1000,
        true⟩) ∧
    (provideLiveCommentary (some (Except.error ())) [wEventC6]
        "technical" none (fun _ => none) 2000 7
        (cacheSet [] (generateCacheKey wEventC6 "technical") "What a combo!" 1000) =
      ⟨"What a combo!",
        cacheSet [] (generateCacheKey wEventC6 "technical") "What a combo!" 1000,
        false⟩) := by
  exact C6_narration_cache_within_ttl (some (Except.error ())) wEventC6 [] []
    "technical" none none (fun _ => none) (fun _ => none) 1000 2000 0 7 []
    "What a combo!" (by decide) rfl (by decide)

/-- C7: narration never propagates provider failure. (i) For a
non-empty batch that does not score a fresh cache hit, a failing
provider makes `provideLiveCommentary` return the deterministic template
text (no exception escapes — the embedding is a total function).
(ii) The template generator returns non-empty text for every event,
including unrecognized `type` tags, via the catch-all default phrase.
(iii) Consequently, for every non-empty batch (and a cache whose
entries are non-empty, as only non-empty texts are ever cached),
narration returns some non-empty text whatever the provider does. -/
theorem C7_narration_never_propagates_provider_failure :
    (∀ (e : JSEvent) (es : List JSEvent) (style : String)
        (gs : Option (List PlayerInfo)) (sn : ℤ → Option String)
        (now : ℤ) (seed : ℕ) (cache : List (String × String × ℤ)),
        (∀ c ts, cacheGet cache (generateCacheKey e style) = some (c, ts) →
          CACHE_EXPIRY_COMMENTARY ≤ now - ts) →
        (provideLiveCommentary (some (Except.error ())) (e :: es) style gs sn
            now seed cache).text =
          generateTemplateCommentary sn e gs seed) ∧
    (∀ (sn : ℤ → Option String) (e : JSEvent)
        (gs : Option (List PlayerInfo)) (seed : ℕ),
        generateTemplateCommentary sn e gs seed ≠ "") ∧
    (∀ (provider : Option (Except Unit String)) (events : List JSEvent)
        (style : String) (gs : Option (List PlayerInfo))
        (sn : ℤ → Option String) (now : ℤ) (seed : ℕ)
        (cache : List (String × String × ℤ)),
        events ≠ [] →
        (∀ entry ∈ cache, entry.2.1 ≠ "") →
        (provideLiveCommentary provider events style gs sn now seed
          cache).text ≠ "") := by
  refine ⟨?_, ?_, ?_⟩
  · intro e es style gs sn now seed cache hstale
    cases hhit : cacheGet cache (generateCacheKey e style) with
    | none =>
      simp only [provideLiveCommentary]
      rw [hhit]
    | some cts =>
      obtain ⟨c, ts⟩ := cts
      have hexp := hstale c ts hhit
      simp only [provideLiveCommentary]
      rw [hhit]
      simp [not_lt.mpr hexp]
  · intro sn e gs seed
    exact generateTemplateCommentary_ne_empty sn e gs seed
  · intro provider events style gs sn now seed cache hne hinv
    cases events with
    | nil => exact absurd rfl hne
    | cons e es =>
      simp only [provideLiveCommentary]
      cases hhit : cacheGet cache (generateCacheKey e style) with
      | some cts =>
        obtain ⟨c, ts⟩ := cts
        have hcne : c ≠ "" := by
          unfold cacheGet at hhit
          cases hfind : cache.find? (fun en => en.1 == generateCacheKey e style) with
          | none => rw [hfind] at hhit; simp at hhit
          | some entry =>
            rw [hfind] at hhit
            simp only [Option.some.injEq] at hhit
            have hmem := List.mem_of_find?_eq_some hfind
            have := hinv entry hmem
            rw [hhit] at this
            exact this
        by_cases hfresh : now - ts < CACHE_EXPIRY_COMMENTARY
        · simp [hfresh, hcne]
        · simp only [hfresh, if_false]
          cases provider with
          | none =>
            simp only []
            by_cases hc : generateTemplateCommentary sn e gs seed = ""
            · exact absurd hc (generateTemplateCommentary_ne_empty sn e gs seed)
            · simpa using hc
          | some r =>
            cases r with
            | ok c2 =>
              by_cases hc2 : c2 = ""
              · simp [hc2]
              · simp [hc2]
            | error u =>
              simp only []
              exact generateTemplateCommentary_ne_empty sn e gs seed
      | none =>
        cases provider with
        | none =>
          simp only []
          exact generateTemplateCommentary_ne_empty sn e gs seed
        | some r =>
          cases r with
          | ok c2 =>
            by_cases hc2 : c2 = ""
            · simp [hc2]
            · simp [hc2]
          | error u =>
            simp only []
            exact generateTemplateCommentary_ne_empty sn e gs seed

/-- Witness for C7 at concrete inputs: with an empty cache, a failing
provider on a one-event batch returns exactly the template text, which
is non-empty; and an unrecognized event type also yields non-empty
text. -/
theorem C7_narration_never_propagates_provider_failure_witness :
    ((provideLiveCommentary (some (Except.error ())) [wEventC6] "technical"
        none (fun _ => none) 1000 0 []).text =
      generateTemplateCommentary (fun _ => none) wEventC6 none 0) ∧
    generateTemplateCommentary (fun _ => none) wEventC6 none 0 ≠ "" ∧
    generateTemplateCommentary (fun _ => none)
      { wEventC6 with type := "someFutureEventType" } none 0 ≠ "" ∧
    (provideLiveCommentary (some (Except.error ())) [wEventC6] "technical"
        none (fun _ => none) 1000 0 []).text ≠ "" := by
  refine ⟨?_, ?_, ?_, ?_⟩
  · exact C7_narration_never_propagates_provider_failure.1 wEventC6 []
      "technical" none (fun _ => none) 1000 0 [] (fun c ts h => by simp [cacheGet] at h)
  · exact C7_narration_never_propagates_provider_failure.2.1 (fun _ => none)
      wEventC6 none 0
  · exact C7_narration_never_propagates_provider_failure.2.1 (fun _ => none)
      { wEventC6 with type := "someFutureEventType" } none 0
  · exact C7_narration_never_propagates_provider_failure.2.2
      (some (Except.error ())) [wEventC6] "technical" none (fun _ => none)
      1000 0 [] (by simp) (by simp)

/-- C8 counterexample: at `(damageDealt, stocksLost) = (0, 0)` the code
returns the neutral score 5 (its explicit `damagePerStock === 0 &&
stocksLost === 0` branch), not the 10 the claim assigns to every
zero-stocks-lost input. -/
theorem C8_counterexample :
    calculatePerformanceRating 0 0 = 5 ∧ (5 : ℤ) ≠ 10 := by
  refine ⟨by decide, by decide⟩

/-- C8 (amended): the rating equals 10 when no stocks were lost AND some
damage was dealt (Infinity damage-per-stock); it equals 5 when no stocks
were lost and no damage was dealt (the no-interaction branch); it equals
1 when stocks were lost but damage is zero; otherwise (stocks lost,
non-zero damage) it is `clamp(floor((damageDealt/stocksLost)/20), 1,
10)`; and in all cases it lies between 1 and 10. -/
theorem C8_performance_rating_formula :
    ∀ (d s : ℚ),
      (s = 0 → 0 < d → calculatePerformanceRating d s = 10) ∧
      (s = 0 → d ≤ 0 → calculatePerformanceRating d s = 5) ∧
      (0 < s → d = 0 → calculatePerformanceRating d s = 1) ∧
      (0 < s → d ≠ 0 →
        calculatePerformanceRating d s = min 10 (max 1 (ratFloor (d / s / 20)))) ∧
      (1 ≤ calculatePerformanceRating d s ∧ calculatePerformanceRating d s ≤ 10) := by
  intro d s
  refine ⟨?_, ?_, ?_, ?_, ?_⟩
  · intro hs hd
    subst hs
    simp [calculatePerformanceRating, damagePerStock, hd, lt_irrefl]
  · intro hs hd
    subst hs
    have hnd : ¬ (0 : ℚ) < d := not_lt.mpr hd
    simp [calculatePerformanceRating, damagePerStock, hnd, lt_irrefl]
  · intro hs hd
    subst hd
    simp [calculatePerformanceRating, damagePerStock, hs, zero_div,
      ne_of_gt hs]
  · intro hs hd
    have hdps : d / s ≠ 0 := div_ne_zero hd (ne_of_gt hs)
    simp [calculatePerformanceRating, damagePerStock, hs, hdps]
  · unfold calculatePerformanceRating
    cases hdps : damagePerStock d s with
    | none => exact ⟨by norm_num, by norm_num⟩
    | some dps =>
      simp only []
      split
      · exact ⟨le_refl 1, by norm_num⟩
      · split
        · exact ⟨by norm_num, by norm_num⟩
        · exact ⟨le_min (by norm_num) (le_max_left 1 _), min_le_left 10 _⟩

/-- Witness for C8 at concrete inputs: 200 damage at 1 stock lost rates
`clamp(floor(10), 1, 10) = 10`, and the (0, 0) corner scores within the
1–10 range. -/
theorem C8_performance_rating_formula_witness :
    calculatePerformanceRating 200 1 = min 10 (max 1 (ratFloor ((200 : ℚ) / 1 / 20))) ∧
    calculatePerformanceRating 200 1 = 10 ∧
    (1 ≤ calculatePerformanceRating 0 0 ∧ calculatePerformanceRating 0 0 ≤ 10) := by
  have hformula := (C8_performance_rating_formula 200 1).2.2.2.1
    (by norm_num) (by norm_num)
  have harg : ((200 : ℚ) / 1 / 20) = 10 := by norm_num
  have hfloor : ratFloor ((200 : ℚ) / 1 / 20) = 10 := by
    rw [harg]
    unfold ratFloor
    rw [Rat.num_ofNat, Rat.den_ofNat]
    decide
  refine ⟨hformula, ?_, (C8_performance_rating_formula 0 0).2.2.2.2⟩
  rw [hformula, hfloor]
  decide

end ClippiCoach

